import Mathlib

/-!
Verification development for the `splat` satellite telemetry and file-transfer
protocol (Python sources `splat/telemetry_definition.py`, `splat/telemetry_helper.py`,
`splat/telemetry_codec.py`, `splat/transport_layer.py`).

The Python code is shallowly embedded: byte strings are `List Nat` (each entry
`< 256`), Python ints are `Int` (or `Nat` where the source value is provably
non-negative), dictionaries keyed by strings are association lists looked up
with a code-point string comparison (Python compares `str` by Unicode code
points, which is exactly what `strEq` / `strLe` below implement), and
fallible operations return `Except`/`Option` with one error constructor per
distinct Python exception site.
-/

namespace Splat

/-- Character equality by Unicode code point, as Python compares characters. -/
def chEq (a b : Char) : Bool := a.toNat == b.toNat

/-- String equality by code points; agrees with `=` on `String` (see `strEq_iff`).
Python `==` on `str` is exactly code-point list equality. -/
def strEq (a b : String) : Bool := List.all₂ chEq a.data b.data

/-- Lexicographic strict order on code-point lists, as Python orders strings. -/
def lexLt : List Char → List Char → Bool
  | [], [] => false
  | [], _ :: _ => true
  | _ :: _, [] => false
  | a :: as, b :: bs =>
      if a.toNat < b.toNat then true
      else if b.toNat < a.toNat then false
      else lexLt as bs

/-- Python `a <= b` on strings (total preorder used by `sorted`). -/
def strLe (a b : String) : Bool := !(lexLt b.data a.data)

theorem chEq_iff (a b : Char) : chEq a b = true ↔ a = b := by
  unfold chEq
  constructor
  · intro h
    have hn : a.toNat = b.toNat := beq_iff_eq.mp h
    exact Char.eq_of_val_eq (UInt32.eq_of_val_eq (Fin.ext hn))
  · intro h; subst h; exact beq_iff_eq.mpr rfl

theorem all₂_chEq_iff : ∀ l₁ l₂ : List Char, List.all₂ chEq l₁ l₂ = true ↔ l₁ = l₂
  | [], [] => by simp [List.all₂]
  | [], _ :: _ => by simp [List.all₂]
  | _ :: _, [] => by simp [List.all₂]
  | a :: as, b :: bs => by
      constructor
      · intro hall
        have h1 : chEq a b = true ∧ List.all₂ chEq as bs = true := by
          simpa [List.all₂, Bool.and_eq_true] using hall
        exact congrArg₂ List.cons ((chEq_iff a b).mp h1.1) ((all₂_chEq_iff as bs).mp h1.2)
      · intro he
        injection he with h1 h2
        subst h1; subst h2
        have hc := (chEq_iff a a).mpr rfl
        have ha := (all₂_chEq_iff as as).mpr rfl
        simp [List.all₂, hc, ha]

theorem strEq_iff (a b : String) : strEq a b = true ↔ a = b := by
  unfold strEq
  rw [all₂_chEq_iff]
  constructor
  · intro hd
    cases a; cases b
    exact congrArg String.mk hd
  · intro h; rw [h]

/-- Association-list lookup keyed by Python string equality (Python `dict.get`). -/
def alookup {α : Type} (k : String) : List (String × α) → Option α
  | [] => none
  | (k', v) :: rest => if strEq k k' then some v else alookup k rest

/-- Python `d[k] = v` on an insertion-ordered dict: replace in place if the key
exists, otherwise append at the end. -/
def dictInsert {α : Type} (d : List (Nat × α)) (k : Nat) (v : α) : List (Nat × α) :=
  if d.any (fun p => p.1 == k) then
    d.map (fun p => if p.1 == k then (k, v) else p)
  else
    d ++ [(k, v)]

/-- Big-endian byte string of `n` in `w` bytes, as Python `int.to_bytes(w, 'big')`
produces for `n < 256^w`. -/
def toBytesBE : Nat → Nat → List Nat
  | 0, _ => []
  | w + 1, n => toBytesBE w (n / 256) ++ [n % 256]

/-- Big-endian integer of a byte string, as Python `int.from_bytes(·, 'big')`. -/
def fromBytesBE (l : List Nat) : Nat := l.foldl (fun acc b => acc * 256 + b) 0

theorem toBytesBE_length (w n : Nat) : (toBytesBE w n).length = w := by
  induction w generalizing n with
  | zero => rfl
  | succ w ih => simp [toBytesBE, ih]

theorem fromBytesBE_append_singleton (l : List Nat) (b : Nat) :
    fromBytesBE (l ++ [b]) = fromBytesBE l * 256 + b := by
  unfold fromBytesBE
  rw [List.foldl_append]
  rfl

theorem fromBytesBE_toBytesBE (w n : Nat) (h : n < 256 ^ w) :
    fromBytesBE (toBytesBE w n) = n := by
  induction w generalizing n with
  | zero =>
    interval_cases n
    rfl
  | succ w ih =>
    have hdiv : n / 256 < 256 ^ w := by
      rw [Nat.div_lt_iff_lt_mul (by norm_num)]
      calc n < 256 ^ (w + 1) := h
        _ = 256 ^ w * 256 := by ring
    calc fromBytesBE (toBytesBE (w + 1) n)
        = fromBytesBE (toBytesBE w (n / 256) ++ [n % 256]) := rfl
      _ = fromBytesBE (toBytesBE w (n / 256)) * 256 + n % 256 :=
          fromBytesBE_append_singleton _ _
      _ = n / 256 * 256 + n % 256 := by rw [ih _ hdiv]
      _ = n := by omega

theorem toBytesBE_lt (w n : Nat) : ∀ b ∈ toBytesBE w n, b < 256 := by
  induction w generalizing n with
  | zero => intro b hb; simp [toBytesBE] at hb
  | succ w ih =>
    intro b hb
    simp only [toBytesBE, List.mem_append, List.mem_singleton] at hb
    rcases hb with hb | hb
    · exact ih _ b hb
    · subst hb; exact Nat.mod_lt _ (by norm_num)

/-- Zero byte string of a given width (hash of all zeros, zero scalars). -/
theorem toBytesBE_zero (w : Nat) : toBytesBE w 0 = List.replicate w 0 := by
  induction w with
  | zero => rfl
  | succ w ih =>
    show toBytesBE w 0 ++ [0] = List.replicate (w + 1) 0
    simp [ih, List.replicate_succ']

/-! Constants from `telemetry_definition.py`. -/

/-- Constant `MAX_PACKET_SIZE` (fragment payload size in bytes). -/
def MAX_PACKET_SIZE : Nat := 230

/-- Python exception kinds raised by the modelled code paths, one constructor
per distinct raise site family. -/
inductive PyErr
  | indexError
  | keyError
  | nameError
  | structError
  | overflowError
  | valueErrorUnknownCommandId
  | valueErrorUnknownReportId
  | valueErrorUnknownVariableId
  | valueErrorReportNotFound
  | valueErrorResponseIdTooLarge
  | valueErrorMsgTypeTooLarge
  | valueErrorUnknownFormat
  deriving DecidableEq, Repr

/-! Transport layer (`transport_layer.py`). -/

namespace trans_state

/-- State constant `trans_state.REQUESTED`. -/
def REQUESTED : Nat := 1

/-- State constant `trans_state.INIT`. -/
def INIT : Nat := 2

/-- State constant `trans_state.SENDING`. -/
def SENDING : Nat := 3

/-- State constant `trans_state.RECEIVING`. -/
def RECEIVING : Nat := 4

/-- State constant `trans_state.COMPLETED`. -/
def COMPLETED : Nat := 5

/-- State constant `trans_state.SUCCESS`. -/
def SUCCESS : Nat := 6

/-- State constant `trans_state.FAILED`. -/
def FAILED : Nat := 7

end trans_state

/-- Modelled from the spec: the `Fragment` entity (spec §3, "Runtime entities").
`transport_layer.py` imports `Fragment` from `telemetry_codec.py`, but its
definition is absent from the sources under review; per the spec it carries
`(transaction_id: 0..7, sequence_number: 0..2^13-1, payload: up to
MAX_PACKET_SIZE bytes)`. `add_payload` becomes the `payload` field. -/
structure Fragment where
  tid : Nat
  seq_number : Nat
  payload : List Nat
  deriving DecidableEq, Repr

/-- Modelled from the spec: packing a Fragment (spec §4.6 and the §6 wire
table). Header `[tag=7:3][tid:3][sequence:13]` is 19 bits in 3 bytes: byte 0 is
`[tag:3][tid:3]` (low 2 bits unused), byte 1 holds sequence bits 12..5, and the
top 5 bits of byte 2 hold the low 5 sequence bits, exactly as the spec
parenthetical prescribes. The opaque payload follows with no length field. -/
def pack_fragment (f : Fragment) : List Nat :=
  ((7 <<< 5) ||| (f.tid <<< 2)) ::
  ((f.seq_number >>> 5) &&& 0xFF) ::
  ((f.seq_number &&& 0x1F) <<< 3) ::
  f.payload

/-- State of a `transport_layer.Transaction`. The wall-clock `start_date` is
not modelled; the bytes of the file at `file_path` are passed explicitly to the
operations that read the file. `fragment_dict` is the insertion-ordered dict
`sequence_number → fragment bytes`. -/
structure Transaction where
  state : Nat
  fragment_dict : List (Nat × List Nat)
  packet_list : List (List Nat)
  tid : Nat
  file_path : Option String
  file_size : Option Nat
  number_of_packets : Option Nat
  file_hash : Option (List Nat)
  missing_fragments : List Nat
  last_batch : List Nat
  deriving DecidableEq, Repr

/-- Helper `Transaction.get_number_of_packets`: ceiling division of the file
size by `MAX_PACKET_SIZE`; `None` without a size, `0` for an empty file. -/
def get_number_of_packets (file_size : Option Nat) : Option Nat :=
  match file_size with
  | none => none
  | some s => if s ≤ 0 then some 0 else some ((s + MAX_PACKET_SIZE - 1) / MAX_PACKET_SIZE)

/-- Constructor `Transaction.__init__`. `disk_size` stands for the result of
`os.path.getsize(file_path)`, which the constructor reads only on the TX side
and only when `file_path` is set (`get_file_size`). `file_hash` is forced to
`None` by the constructor ("disabled for now"), whatever was passed in. -/
def Transaction.init (tid : Nat) (file_path : Option String)
    (number_of_packets : Option Nat) (is_tx : Bool) (disk_size : Option Nat) :
    Transaction :=
  let fs : Option Nat :=
    if is_tx then (match file_path with | none => none | some _ => disk_size) else none
  let np : Option Nat := if is_tx then get_number_of_packets fs else number_of_packets
  { state := trans_state.REQUESTED
    fragment_dict := []
    packet_list := []
    tid := tid
    file_path := file_path
    file_size := fs
    number_of_packets := np
    file_hash := none
    missing_fragments := match np with | some n => List.range n | none => []
    last_batch := [] }

/-- Operation `Transaction.add_packet(seq_number, fragment, check)`: switches to
`RECEIVING` if not there, stores the fragment (overwriting duplicates), removes
the sequence number from `missing_fragments` when present (Python
`list.remove`, i.e. first occurrence), and transitions to `COMPLETED` exactly
when `check` holds and `len(fragment_dict) == number_of_packets` (false when
the latter is `None`). Returns the updated transaction and the Python return
value (`True` iff it completed). Console warnings are not modelled. -/
def Transaction.add_packet (t : Transaction) (seq_number : Nat) (fragment : List Nat)
    (check : Bool) : Transaction × Bool :=
  let t1 := if t.state ≠ trans_state.RECEIVING then { t with state := trans_state.RECEIVING } else t
  let t2 := { t1 with fragment_dict := dictInsert t1.fragment_dict seq_number fragment }
  let t3 := if seq_number ∈ t2.missing_fragments
            then { t2 with missing_fragments := t2.missing_fragments.erase seq_number }
            else t2
  if check = true ∧ some t3.fragment_dict.length = t3.number_of_packets
  then ({ t3 with state := trans_state.COMPLETED }, true)
  else (t3, false)

/-- Operation `Transaction.add_fragment`: delegates to `add_packet` with
`check=True` on the fragment's sequence number and payload. -/
def Transaction.add_fragment (t : Transaction) (f : Fragment) : Transaction × Bool :=
  t.add_packet f.seq_number f.payload true

/-- Operation `Transaction.get_hash_as_integers`: `(0, 0, 0)` when no hash is
set, else the big-endian integers of the slices `hash[:8]`, `hash[8:16]`,
`hash[16:20]`. -/
def Transaction.get_hash_as_integers (t : Transaction) : Nat × Nat × Nat :=
  match t.file_hash with
  | none => (0, 0, 0)
  | some h =>
    (fromBytesBE (h.take 8), fromBytesBE ((h.drop 8).take 8), fromBytesBE ((h.drop 16).take 4))

/-- Operation `Transaction.set_hash_from_integers`: rebuilds the 20-byte hash
as `to_bytes(8) ++ to_bytes(8) ++ to_bytes(4)`; Python `int.to_bytes` raises
`OverflowError` when a value does not fit its width. -/
def Transaction.set_hash_from_integers (t : Transaction)
    (hash_MSB hash_middlesb hash_LSB : Nat) : Except PyErr Transaction :=
  if hash_MSB < 256 ^ 8 ∧ hash_middlesb < 256 ^ 8 ∧ hash_LSB < 256 ^ 4 then
    let hb := toBytesBE 8 hash_MSB ++ toBytesBE 8 hash_middlesb ++ toBytesBE 4 hash_LSB
    .ok { t with file_hash := some hb }
  else .error .overflowError

/-- Loop of `Transaction.generate_x_packets`: iterates `i = 0 .. x-1` (first
argument is the remaining iteration count), stops early only when
`missing_fragments` is empty (the loop never shrinks the list, so this guard
can fire only if it was empty on entry), and indexes `missing_fragments[i]`,
which raises `IndexError` when `i` is out of range. Each pass appends the
sequence number to `last_batch` and the packed fragment to the result. -/
def gen_x_go (t : Transaction) (file_data : List Nat) :
    Nat → Nat → List Nat → List (List Nat) → Except PyErr (List Nat × List (List Nat))
  | 0, _, lastB, acc => .ok (lastB, acc)
  | rem + 1, i, lastB, acc =>
    if t.missing_fragments.length = 0 then .ok (lastB, acc)
    else match t.missing_fragments.get? i with
      | none => .error .indexError
      | some seq =>
        let payload := (file_data.drop (seq * MAX_PACKET_SIZE)).take MAX_PACKET_SIZE
        let frag : Fragment := { tid := t.tid, seq_number := seq, payload := payload }
        gen_x_go t file_data rem (i + 1) (lastB ++ [seq]) (acc ++ [pack_fragment frag])

/-- Operation `Transaction.generate_x_packets(x)`; `file_data` is the content
of the file at `t.file_path`. Clears `last_batch`, then generates one packed
fragment per loop pass; `missing_fragments` is left untouched ("will only
remove the fragments once they are confirmed"). A Python `IndexError` from the
loop propagates to the caller. -/
def Transaction.generate_x_packets (t : Transaction) (file_data : List Nat) (x : Nat) :
    Except PyErr (Transaction × List (List Nat)) :=
  match gen_x_go t file_data x 0 [] [] with
  | .error e => .error e
  | .ok (lastB, packets) => .ok ({ t with last_batch := lastB }, packets)

/-- Window body of `Transaction.generate_missing_bitmaps`: bit `(width-1)-i`
(MSB-first within the window) is set iff `seq_offset + i` has been received,
i.e. is not in the missing list. -/
def bitmap_window (missing : List Nat) (seq_offset width : Nat) : Nat :=
  (List.range width).foldl
    (fun bm bit_index =>
      if (seq_offset + bit_index) ∈ missing then bm
      else bm ||| (1 <<< ((width - 1) - bit_index)))
    0

/-- Operation `Transaction.generate_missing_bitmaps(max_bits)`: walks
`range(0, number_of_packets, max_bits)` (modelled for `max_bits > 0`, the only
use; the default is 32) and emits one `[seq_offset, msb16, lsb16]` triple per
window, the last window truncated to the remaining width. -/
def Transaction.generate_missing_bitmaps (t : Transaction) (max_bits : Nat) :
    List (Nat × Nat × Nat) :=
  match t.number_of_packets with
  | none => []
  | some n =>
    (List.range ((n + max_bits - 1) / max_bits)).map (fun k =>
      let seq_offset := k * max_bits
      let width := min max_bits (n - seq_offset)
      let bm := bitmap_window t.missing_fragments seq_offset width
      (seq_offset, (bm >>> 16) &&& 0xFFFF, bm &&& 0xFFFF))

/-- Operation `Transaction.update_missing_fragments_bitmap(seq_offset, (msb, lsb),
max_bits)`. The pair is recombined as `(msb << 16) | lsb`; the window width is
`min(max_bits, number_of_packets - seq_offset)` clamped at zero; within the
window, bit `(width-1)-i` equal to 1 discards `seq_offset + i` from the missing
set and 0 inserts it; the missing list is rebuilt sorted (Python
`sorted(set(...))`, here `Finset.sort`). Does nothing when
`number_of_packets` is `None`. -/
def Transaction.update_missing_fragments_bitmap (t : Transaction)
    (seq_offset msb lsb : Nat) (max_bits : Nat) : Transaction :=
  match t.number_of_packets with
  | none => t
  | some n =>
    let bitmap := (msb <<< 16) ||| lsb
    let width := min max_bits (n - seq_offset)
    if width = 0 then t
    else
      let s1 := (List.range width).foldl
        (fun s i =>
          let seq_number := seq_offset + i
          let bit_pos := (width - 1) - i
          if (bitmap >>> bit_pos) &&& 1 = 1 then s.erase seq_number
          else insert seq_number s)
        t.missing_fragments.toFinset
      { t with missing_fragments := s1.sort (· ≤ ·) }

/-! TransactionManager (`transport_layer.py`). -/

/-- Constant `TransactionManager.MAX_TRANSACTIONS`. -/
def MAX_TRANSACTIONS : Nat := 8

/-- Manager state: the module-level `tx_dict` / `rx_dict`, insertion-ordered
maps `tid → Transaction`. -/
structure ManagerState where
  tx_dict : List (Nat × Transaction)
  rx_dict : List (Nat × Transaction)
  deriving Repr

/-- Expression `min(set(range(MAX_TRANSACTIONS)) - set(target_dict.keys()))`:
the smallest id in `0..7` not among the keys. (Under the guard that the dict
holds fewer than 8 entries the difference is nonempty, so the default of
`headD` is never taken.) -/
def smallestUnused (keys : List Nat) : Nat :=
  (((List.range MAX_TRANSACTIONS).filter (fun i => i ∉ keys)).headD 0)

/-- Operation `TransactionManager.create_transaction(tid, file_path, file_hash,
number_of_packets, is_tx)`. `disk_size` models `os.path.getsize(file_path)`
for the constructed transaction (read on the TX side only). Returns the
Python return value (`None` on the two error paths, where the code prints an
error) and the updated manager state. The `file_hash` argument is accepted
and then discarded by `Transaction.__init__` ("disabled for now"). -/
def create_transaction (st : ManagerState) (tid : Option Nat) (file_path : Option String)
    (file_hash : Option (List Nat)) (number_of_packets : Option Nat) (is_tx : Bool)
    (disk_size : Option Nat) : Option Transaction × ManagerState :=
  let target_dict := if is_tx then st.tx_dict else st.rx_dict
  -- the guard below is commented "For RX side (client), tid must be provided
  -- by server" in the source, yet it tests `is_tx`:
  if is_tx = true ∧ tid = none then
    (none, st)
  -- the next guard is commented "For TX side (server), allocate tid if not
  -- provided", yet it tests `not is_tx`:
  else if is_tx = false ∧ tid = none ∧ MAX_TRANSACTIONS ≤ target_dict.length then
    (none, st)
  else
    let _ := file_hash
    let tidv : Nat :=
      match tid with
      | some v => v
      | none => smallestUnused (target_dict.map Prod.fst)
    -- "In tx side if the tid already exists overwrite it": delete, then insert
    let target1 := if target_dict.any (fun p => p.1 == tidv)
                   then target_dict.filter (fun p => p.1 != tidv)
                   else target_dict
    let trans := Transaction.init tidv file_path number_of_packets is_tx disk_size
    let target2 := target1 ++ [(tidv, trans)]
    if is_tx then (some trans, { st with tx_dict := target2 })
    else (some trans, { st with rx_dict := target2 })

/-! Definition tables (`telemetry_definition.py`). -/

/-- Constant `MSG_TYPE_SIZE` (bits). -/
def MSG_TYPE_SIZE : Nat := 3

/-- Constant `REPORT_ID_SIZE` (bits). -/
def REPORT_ID_SIZE : Nat := 5

/-- Constant `VARIABLE_SS_SIZE` (bits). -/
def VARIABLE_SS_SIZE : Nat := 3

/-- Constant `VARIABLE_ID_SIZE` (bits). -/
def VARIABLE_ID_SIZE : Nat := 10

/-- Constant `COMMAND_ID_SIZE` (bits). -/
def COMMAND_ID_SIZE : Nat := 13

/-- Table `MSG_TYPE_DICT`: the 3-bit message-type tags. -/
def MSG_TYPE_DICT : List (String × Nat) :=
  [("reports", 0), ("variable", 1), ("commands", 2), ("responses", 3),
   ("ota", 4), ("image_data", 5), ("ack", 6)]

/-- Table `SS_map`. -/
def SS_map : List (String × Nat) := [
  ("CDH", 0), ("EPS", 1), ("ADCS", 2), ("GPS", 3), ("STORAGE", 4), ("COMMS", 5), ("PAYLOAD_TM", 6)]

/-- Table `var_dict`: variable name, subsystem, struct code, optional scale. -/
def var_dict : List (String × String × String × Option Nat) := [
  ("TIME", "CDH", "I", none),
  ("SC_STATE", "CDH", "B", none),
  ("SD_USAGE", "CDH", "I", none),
  ("CURRENT_RAM_USAGE", "CDH", "B", none),
  ("REBOOT_COUNT", "CDH", "B", none),
  ("WATCHDOG_TIMER", "CDH", "B", none),
  ("HAL_BITFLAGS", "CDH", "B", none),
  ("DETUMBLING_ERROR_FLAG", "CDH", "B", none),
  ("EPS_POWER_FLAG", "EPS", "B", none),
  ("MAINBOARD_TEMPERATURE", "EPS", "h", some 10),
  ("MAINBOARD_VOLTAGE", "EPS", "h", some 1000),
  ("MAINBOARD_CURRENT", "EPS", "h", some 1000),
  ("BATTERY_PACK_TEMPERATURE", "EPS", "h", some 10),
  ("BATTERY_PACK_REPORTED_SOC", "EPS", "B", some 1),
  ("BATTERY_PACK_REPORTED_CAPACITY", "EPS", "H", some 1),
  ("BATTERY_PACK_CURRENT", "EPS", "h", some 1000),
  ("BATTERY_PACK_VOLTAGE", "EPS", "h", some 1000),
  ("BATTERY_PACK_MIDPOINT_VOLTAGE", "EPS", "h", some 1000),
  ("BATTERY_PACK_TTE", "EPS", "I", some 1),
  ("BATTERY_PACK_TTF", "EPS", "I", some 1),
  ("XP_COIL_VOLTAGE", "EPS", "h", some 1000),
  ("XP_COIL_CURRENT", "EPS", "h", some 1000),
  ("XM_COIL_VOLTAGE", "EPS", "h", some 1000),
  ("XM_COIL_CURRENT", "EPS", "h", some 1000),
  ("YP_COIL_VOLTAGE", "EPS", "h", some 1000),
  ("YP_COIL_CURRENT", "EPS", "h", some 1000),
  ("YM_COIL_VOLTAGE", "EPS", "h", some 1000),
  ("YM_COIL_CURRENT", "EPS", "h", some 1000),
  ("ZP_COIL_VOLTAGE", "EPS", "h", some 1000),
  ("ZP_COIL_CURRENT", "EPS", "h", some 1000),
  ("ZM_COIL_VOLTAGE", "EPS", "h", some 1000),
  ("ZM_COIL_CURRENT", "EPS", "h", some 1000),
  ("JETSON_INPUT_VOLTAGE", "EPS", "h", some 1000),
  ("JETSON_INPUT_CURRENT", "EPS", "h", some 1000),
  ("RF_LDO_OUTPUT_VOLTAGE", "EPS", "h", some 1000),
  ("RF_LDO_OUTPUT_CURRENT", "EPS", "h", some 1000),
  ("GPS_VOLTAGE", "EPS", "h", some 1000),
  ("GPS_CURRENT", "EPS", "h", some 1000),
  ("XP_SOLAR_CHARGE_VOLTAGE", "EPS", "h", some 1000),
  ("XP_SOLAR_CHARGE_CURRENT", "EPS", "h", some 1000),
  ("XM_SOLAR_CHARGE_VOLTAGE", "EPS", "h", some 1000),
  ("XM_SOLAR_CHARGE_CURRENT", "EPS", "h", some 1000),
  ("YP_SOLAR_CHARGE_VOLTAGE", "EPS", "h", some 1000),
  ("YP_SOLAR_CHARGE_CURRENT", "EPS", "h", some 1000),
  ("YM_SOLAR_CHARGE_VOLTAGE", "EPS", "h", some 1000),
  ("YM_SOLAR_CHARGE_CURRENT", "EPS", "h", some 1000),
  ("ZP_SOLAR_CHARGE_VOLTAGE", "EPS", "h", some 1000),
  ("ZP_SOLAR_CHARGE_CURRENT", "EPS", "h", some 1000),
  ("ZM_SOLAR_CHARGE_VOLTAGE", "EPS", "h", some 1000),
  ("ZM_SOLAR_CHARGE_CURRENT", "EPS", "h", some 1000),
  ("MODE", "ADCS", "B", none),
  ("GYRO_X", "ADCS", "f", some 10000000),
  ("GYRO_Y", "ADCS", "f", some 10000000),
  ("GYRO_Z", "ADCS", "f", some 10000000),
  ("MAG_X", "ADCS", "f", some 10000000),
  ("MAG_Y", "ADCS", "f", some 10000000),
  ("MAG_Z", "ADCS", "f", some 10000000),
  ("SUN_STATUS", "ADCS", "B", none),
  ("SUN_VEC_X", "ADCS", "f", some 10000000),
  ("SUN_VEC_Y", "ADCS", "f", some 10000000),
  ("SUN_VEC_Z", "ADCS", "f", some 10000000),
  ("LIGHT_SENSOR_XP", "ADCS", "H", none),
  ("LIGHT_SENSOR_XM", "ADCS", "H", none),
  ("LIGHT_SENSOR_YP", "ADCS", "H", none),
  ("LIGHT_SENSOR_YM", "ADCS", "H", none),
  ("LIGHT_SENSOR_ZP1", "ADCS", "H", none),
  ("LIGHT_SENSOR_ZP2", "ADCS", "H", none),
  ("LIGHT_SENSOR_ZP3", "ADCS", "H", none),
  ("LIGHT_SENSOR_ZP4", "ADCS", "H", none),
  ("LIGHT_SENSOR_ZM", "ADCS", "H", none),
  ("XP_COIL_STATUS", "ADCS", "B", none),
  ("XM_COIL_STATUS", "ADCS", "B", none),
  ("YP_COIL_STATUS", "ADCS", "B", none),
  ("YM_COIL_STATUS", "ADCS", "B", none),
  ("ZP_COIL_STATUS", "ADCS", "B", none),
  ("ZM_COIL_STATUS", "ADCS", "B", none),
  ("GPS_MESSAGE_ID", "GPS", "B", none),
  ("GPS_FIX_MODE", "GPS", "B", none),
  ("GPS_NUMBER_OF_SV", "GPS", "B", none),
  ("GPS_GNSS_WEEK", "GPS", "H", none),
  ("GPS_GNSS_TOW", "GPS", "I", none),
  ("GPS_LATITUDE", "GPS", "i", some 10000000),
  ("GPS_LONGITUDE", "GPS", "i", some 10000000),
  ("GPS_ELLIPSOID_ALT", "GPS", "i", some 100),
  ("GPS_MEAN_SEA_LVL_ALT", "GPS", "i", some 100),
  ("GPS_ECEF_X", "GPS", "i", some 100),
  ("GPS_ECEF_Y", "GPS", "i", some 100),
  ("GPS_ECEF_Z", "GPS", "i", some 100),
  ("GPS_ECEF_VX", "GPS", "i", some 100),
  ("GPS_ECEF_VY", "GPS", "i", some 100),
  ("GPS_ECEF_VZ", "GPS", "i", some 100),
  ("SYSTEM_TIME", "PAYLOAD_TM", "Q", none),
  ("SYSTEM_UPTIME", "PAYLOAD_TM", "I", none),
  ("LAST_EXECUTED_CMD_TIME", "PAYLOAD_TM", "I", none),
  ("LAST_EXECUTED_CMD_ID", "PAYLOAD_TM", "B", none),
  ("PAYLOAD_STATE", "PAYLOAD_TM", "B", none),
  ("ACTIVE_CAMERAS", "PAYLOAD_TM", "B", none),
  ("CAPTURE_MODE", "PAYLOAD_TM", "B", none),
  ("CAM_STATUS_0", "PAYLOAD_TM", "B", none),
  ("CAM_STATUS_1", "PAYLOAD_TM", "B", none),
  ("CAM_STATUS_2", "PAYLOAD_TM", "B", none),
  ("CAM_STATUS_3", "PAYLOAD_TM", "B", none),
  ("IMU_STATUS", "PAYLOAD_TM", "B", none),
  ("TASKS_IN_EXECUTION", "PAYLOAD_TM", "B", none),
  ("DISK_USAGE", "PAYLOAD_TM", "B", none),
  ("LATEST_ERROR", "PAYLOAD_TM", "B", none),
  ("TEGRASTATS_PROCESS_STATUS", "PAYLOAD_TM", "B", none),
  ("RAM_USAGE", "PAYLOAD_TM", "B", none),
  ("SWAP_USAGE", "PAYLOAD_TM", "B", none),
  ("ACTIVE_CORES", "PAYLOAD_TM", "B", none),
  ("CPU_LOAD_0", "PAYLOAD_TM", "B", none),
  ("CPU_LOAD_1", "PAYLOAD_TM", "B", none),
  ("CPU_LOAD_2", "PAYLOAD_TM", "B", none),
  ("CPU_LOAD_3", "PAYLOAD_TM", "B", none),
  ("CPU_LOAD_4", "PAYLOAD_TM", "B", none),
  ("CPU_LOAD_5", "PAYLOAD_TM", "B", none),
  ("GPU_FREQ", "PAYLOAD_TM", "B", none),
  ("CPU_TEMP", "PAYLOAD_TM", "B", none),
  ("GPU_TEMP", "PAYLOAD_TM", "B", none),
  ("VDD_IN", "PAYLOAD_TM", "H", none),
  ("VDD_CPU_GPU_CV", "PAYLOAD_TM", "H", none),
  ("VDD_SOC", "PAYLOAD_TM", "H", none),
  ("SD_TOTAL_USAGE", "STORAGE", "I", none),
  ("CDH_NUM_FILES", "STORAGE", "I", none),
  ("CDH_DIR_SIZE", "STORAGE", "I", none),
  ("EPS_NUM_FILES", "STORAGE", "I", none),
  ("EPS_DIR_SIZE", "STORAGE", "I", none),
  ("ADCS_NUM_FILES", "STORAGE", "I", none),
  ("ADCS_DIR_SIZE", "STORAGE", "I", none),
  ("COMMS_NUM_FILES", "STORAGE", "I", none),
  ("COMMS_DIR_SIZE", "STORAGE", "I", none),
  ("GPS_NUM_FILES", "STORAGE", "I", none),
  ("GPS_DIR_SIZE", "STORAGE", "I", none),
  ("PAYLOAD_NUM_FILES", "STORAGE", "I", none),
  ("PAYLOAD_DIR_SIZE", "STORAGE", "I", none),
  ("CMD_LOGS_NUM_FILES", "STORAGE", "I", none),
  ("CMD_LOGS_DIR_SIZE", "STORAGE", "I", none)]

/-- Table `report_dict`: report name, declaration-ordered list of (variable, subsystem). -/
def report_dict : List (String × List (String × String)) := [
  ("TM_HEARTBEAT", [("TIME", "CDH"), ("SC_STATE", "CDH"), ("SD_USAGE", "CDH"), ("CURRENT_RAM_USAGE", "CDH"), ("REBOOT_COUNT", "CDH"), ("WATCHDOG_TIMER", "CDH"), ("HAL_BITFLAGS", "CDH"), ("DETUMBLING_ERROR_FLAG", "CDH"), ("EPS_POWER_FLAG", "EPS"), ("MAINBOARD_TEMPERATURE", "EPS"), ("MAINBOARD_VOLTAGE", "EPS"), ("MAINBOARD_CURRENT", "EPS"), ("BATTERY_PACK_TEMPERATURE", "EPS"), ("BATTERY_PACK_REPORTED_SOC", "EPS"), ("BATTERY_PACK_REPORTED_CAPACITY", "EPS"), ("BATTERY_PACK_CURRENT", "EPS"), ("BATTERY_PACK_VOLTAGE", "EPS"), ("BATTERY_PACK_MIDPOINT_VOLTAGE", "EPS"), ("BATTERY_PACK_TTE", "EPS"), ("BATTERY_PACK_TTF", "EPS"), ("XP_COIL_VOLTAGE", "EPS"), ("XP_COIL_CURRENT", "EPS"), ("XM_COIL_VOLTAGE", "EPS"), ("XM_COIL_CURRENT", "EPS"), ("YP_COIL_VOLTAGE", "EPS"), ("YP_COIL_CURRENT", "EPS"), ("YM_COIL_VOLTAGE", "EPS"), ("YM_COIL_CURRENT", "EPS"), ("ZP_COIL_VOLTAGE", "EPS"), ("ZP_COIL_CURRENT", "EPS"), ("ZM_COIL_VOLTAGE", "EPS"), ("ZM_COIL_CURRENT", "EPS"), ("JETSON_INPUT_VOLTAGE", "EPS"), ("JETSON_INPUT_CURRENT", "EPS"), ("RF_LDO_OUTPUT_VOLTAGE", "EPS"), ("RF_LDO_OUTPUT_CURRENT", "EPS"), ("GPS_VOLTAGE", "EPS"), ("GPS_CURRENT", "EPS"), ("XP_SOLAR_CHARGE_VOLTAGE", "EPS"), ("XP_SOLAR_CHARGE_CURRENT", "EPS"), ("XM_SOLAR_CHARGE_VOLTAGE", "EPS"), ("XM_SOLAR_CHARGE_CURRENT", "EPS"), ("YP_SOLAR_CHARGE_VOLTAGE", "EPS"), ("YP_SOLAR_CHARGE_CURRENT", "EPS"), ("YM_SOLAR_CHARGE_VOLTAGE", "EPS"), ("YM_SOLAR_CHARGE_CURRENT", "EPS"), ("ZP_SOLAR_CHARGE_VOLTAGE", "EPS"), ("ZP_SOLAR_CHARGE_CURRENT", "EPS"), ("ZM_SOLAR_CHARGE_VOLTAGE", "EPS"), ("ZM_SOLAR_CHARGE_CURRENT", "EPS"), ("MODE", "ADCS"), ("GYRO_X", "ADCS"), ("GYRO_Y", "ADCS"), ("GYRO_Z", "ADCS"), ("MAG_X", "ADCS"), ("MAG_Y", "ADCS"), ("MAG_Z", "ADCS"), ("SUN_STATUS", "ADCS"), ("SUN_VEC_X", "ADCS"), ("SUN_VEC_Y", "ADCS"), ("SUN_VEC_Z", "ADCS"), ("LIGHT_SENSOR_XP", "ADCS"), ("LIGHT_SENSOR_XM", "ADCS"), ("LIGHT_SENSOR_YP", "ADCS"), ("LIGHT_SENSOR_YM", "ADCS"), ("LIGHT_SENSOR_ZP1", "ADCS"), ("LIGHT_SENSOR_ZP2", "ADCS"), ("LIGHT_SENSOR_ZP3", "ADCS"), ("LIGHT_SENSOR_ZP4", "ADCS"), ("LIGHT_SENSOR_ZM", "ADCS"), ("XP_COIL_STATUS", "ADCS"), ("XM_COIL_STATUS", "ADCS"), ("YP_COIL_STATUS", "ADCS"), ("YM_COIL_STATUS", "ADCS"), ("ZP_COIL_STATUS", "ADCS"), ("ZM_COIL_STATUS", "ADCS"), ("GPS_MESSAGE_ID", "GPS"), ("GPS_FIX_MODE", "GPS"), ("GPS_NUMBER_OF_SV", "GPS"), ("GPS_GNSS_WEEK", "GPS"), ("GPS_GNSS_TOW", "GPS"), ("GPS_LATITUDE", "GPS"), ("GPS_LONGITUDE", "GPS"), ("GPS_ELLIPSOID_ALT", "GPS"), ("GPS_MEAN_SEA_LVL_ALT", "GPS"), ("GPS_ECEF_X", "GPS"), ("GPS_ECEF_Y", "GPS"), ("GPS_ECEF_Z", "GPS"), ("GPS_ECEF_VX", "GPS"), ("GPS_ECEF_VY", "GPS"), ("GPS_ECEF_VZ", "GPS")]),
  ("TM_STORAGE", [("TIME", "CDH"), ("SC_STATE", "CDH"), ("SD_USAGE", "CDH"), ("CURRENT_RAM_USAGE", "CDH"), ("REBOOT_COUNT", "CDH"), ("WATCHDOG_TIMER", "CDH"), ("HAL_BITFLAGS", "CDH"), ("DETUMBLING_ERROR_FLAG", "CDH"), ("SD_TOTAL_USAGE", "STORAGE"), ("CDH_NUM_FILES", "STORAGE"), ("CDH_DIR_SIZE", "STORAGE"), ("EPS_NUM_FILES", "STORAGE"), ("EPS_DIR_SIZE", "STORAGE"), ("ADCS_NUM_FILES", "STORAGE"), ("ADCS_DIR_SIZE", "STORAGE"), ("COMMS_NUM_FILES", "STORAGE"), ("COMMS_DIR_SIZE", "STORAGE"), ("GPS_NUM_FILES", "STORAGE"), ("GPS_DIR_SIZE", "STORAGE"), ("PAYLOAD_NUM_FILES", "STORAGE"), ("PAYLOAD_DIR_SIZE", "STORAGE"), ("CMD_LOGS_NUM_FILES", "STORAGE"), ("CMD_LOGS_DIR_SIZE", "STORAGE")]),
  ("TM_HAL", [("TIME", "CDH"), ("SC_STATE", "CDH"), ("SD_USAGE", "CDH"), ("CURRENT_RAM_USAGE", "CDH"), ("REBOOT_COUNT", "CDH"), ("WATCHDOG_TIMER", "CDH"), ("HAL_BITFLAGS", "CDH"), ("DETUMBLING_ERROR_FLAG", "CDH")]),
  ("TM_TEST", [("TIME", "CDH"), ("SC_STATE", "CDH"), ("GPS_MESSAGE_ID", "GPS")]),
  ("TM_PAYLOAD", [("SYSTEM_TIME", "PAYLOAD_TM"), ("SYSTEM_UPTIME", "PAYLOAD_TM"), ("LAST_EXECUTED_CMD_TIME", "PAYLOAD_TM"), ("LAST_EXECUTED_CMD_ID", "PAYLOAD_TM"), ("PAYLOAD_STATE", "PAYLOAD_TM"), ("ACTIVE_CAMERAS", "PAYLOAD_TM"), ("CAPTURE_MODE", "PAYLOAD_TM"), ("CAM_STATUS_0", "PAYLOAD_TM"), ("CAM_STATUS_1", "PAYLOAD_TM"), ("CAM_STATUS_2", "PAYLOAD_TM"), ("CAM_STATUS_3", "PAYLOAD_TM"), ("IMU_STATUS", "PAYLOAD_TM"), ("TASKS_IN_EXECUTION", "PAYLOAD_TM"), ("DISK_USAGE", "PAYLOAD_TM"), ("LATEST_ERROR", "PAYLOAD_TM"), ("TEGRASTATS_PROCESS_STATUS", "PAYLOAD_TM"), ("RAM_USAGE", "PAYLOAD_TM"), ("SWAP_USAGE", "PAYLOAD_TM"), ("ACTIVE_CORES", "PAYLOAD_TM"), ("CPU_LOAD_0", "PAYLOAD_TM"), ("CPU_LOAD_1", "PAYLOAD_TM"), ("CPU_LOAD_2", "PAYLOAD_TM"), ("CPU_LOAD_3", "PAYLOAD_TM"), ("CPU_LOAD_4", "PAYLOAD_TM"), ("CPU_LOAD_5", "PAYLOAD_TM"), ("GPU_FREQ", "PAYLOAD_TM"), ("CPU_TEMP", "PAYLOAD_TM"), ("GPU_TEMP", "PAYLOAD_TM"), ("VDD_IN", "PAYLOAD_TM"), ("VDD_CPU_GPU_CV", "PAYLOAD_TM"), ("VDD_SOC", "PAYLOAD_TM")])]

/-- Table `argument_dict`. -/
def argument_dict : List (String × String) := [
  ("target_state_id", "B"),
  ("time_in_state", "I"),
  ("time_reference", "I"),
  ("file_id", "I"),
  ("file_time", "I"),
  ("op1", "I"),
  ("op2", "I"),
  ("string_command", "s"),
  ("tid", "B"),
  ("number_of_packets", "H"),
  ("hash_MSB", "Q"),
  ("hash_LSB", "Q"),
  ("seq_number", "H"),
  ("payload_frag", "p"),
  ("x", "H")]

/-- Table `command_list`: name, precondition tag, argument names, handler tag. -/
def command_list : List (String × Option String × List String × String) := [
  ("FORCE_REBOOT", none, [], "FORCE_REBOOT"),
  ("SUM", some "valid_inputs", ["op1", "op2"], "SUM"),
  ("SWITCH_TO_STATE", some "valid_state", ["target_state_id", "time_in_state"], "SWITCH_TO_STATE"),
  ("UPLINK_TIME_REFERENCE", some "valid_time_format", ["time_reference"], "UPLINK_TIME_REFERENCE"),
  ("TURN_OFF_PAYLOAD", none, [], "TURN_OFF_PAYLOAD"),
  ("SCHEDULE_OD_EXPERIMENT", none, [], "SCHEDULE_OD_EXPERIMENT"),
  ("REQUEST_TM_NOMINAL", none, [], "REQUEST_TM_NOMINAL"),
  ("REQUEST_TM_HAL", none, [], "REQUEST_TM_HAL"),
  ("REQUEST_TM_STORAGE", none, [], "REQUEST_TM_STORAGE"),
  ("REQUEST_TM_PAYLOAD", none, [], "REQUEST_TM_PAYLOAD"),
  ("REQUEST_FILE_METADATA", some "file_id_exists", ["file_id", "file_time"], "REQUEST_FILE_METADATA"),
  ("REQUEST_FILE_PKT", some "file_id_exists", ["file_id", "file_time"], "REQUEST_FILE_PKT"),
  ("REQUEST_IMAGE", none, [], "REQUEST_IMAGE"),
  ("DOWNLINK_ALL", some "file_id_exists", ["file_id", "file_time"], "DOWNLINK_ALL"),
  ("EVAL_STRING_COMMAND", none, ["string_command"], "EVAL_STRING_COMMAND"),
  ("CREATE_TRANS", none, ["string_command"], "CREATE_TRANS"),
  ("INIT_TRANS", none, ["tid", "number_of_packets", "hash_MSB", "hash_LSB"], "INIT_TRANS"),
  ("GENERATE_ALL_PACKETS", none, ["tid"], "GENERATE_ALL_PACKETS"),
  ("GENERATE_X_PACKETS", none, ["tid", "x"], "GENERATE_X_PACKETS"),
  ("GET_SINGLE_PACKET", none, ["tid", "seq_number"], "GET_SINGLE_PACKET"),
  ("TRANS_PAYLOAD", none, ["tid", "seq_number", "payload_frag"], "TRANS_PAYLOAD")]


/-! Derived identifier maps (`telemetry_definition.py`, bottom section). -/

/-- Derived list `all_cmd_names`: command names in table order; the command id
is the position. -/
def all_cmd_names : List String := command_list.map (fun c => c.1)

/-- Derived map `COMMAND_IDS`: name to index in `command_list`. -/
def COMMAND_IDS (name : String) : Option Nat :=
  all_cmd_names.findIdx? (fun n => strEq n name)

/-- Report names in declaration order. -/
def report_names : List String := report_dict.map (fun r => r.1)

/-- Alphabetically sorted report names (Python `sorted`, a stable code-point
sort; insertion sort is stable and agrees with it). -/
def sorted_report_names : List String :=
  List.insertionSort (fun a b => strLe a b) report_names

/-- Derived map `REPORT_IDS`: position of the name among the sorted report
names. -/
def REPORT_IDS (name : String) : Option Nat :=
  sorted_report_names.findIdx? (fun n => strEq n name)

/-- Derived map `REPORT_NAMES`: inverse of `REPORT_IDS`. -/
def REPORT_NAMES (i : Nat) : Option String := sorted_report_names.get? i

/-- Derived per-subsystem table `VAR_ID_TO_NAME[ss]`: the subsystem's variable
names sorted alphabetically; the variable id is the position. -/
def varNamesOfSS (ss_name : String) : List String :=
  List.insertionSort (fun a b => strLe a b)
    ((var_dict.filter (fun p => strEq p.2.1 ss_name)).map (fun p => p.1))

/-- Derived map `VAR_NAME_TO_ID`: `(subsystem_id, variable_id)` of a variable
name. Python builds one dictionary over all subsystems; since a name belongs
to exactly one subsystem, scanning `SS_map` for the subsystem whose sorted
table contains the name is the same map. -/
def VAR_NAME_TO_ID (name : String) : Option (Nat × Nat) :=
  SS_map.foldr (fun p acc =>
    match (varNamesOfSS p.1).findIdx? (fun n => strEq n name) with
    | some vid => some (p.2, vid)
    | none => acc) none

/-- Lookup `VAR_ID_TO_NAME[ss_id][var_id]`. -/
def VAR_ID_TO_NAME (ss_id var_id : Nat) : Option String :=
  match SS_map.find? (fun p => p.2 == ss_id) with
  | none => none
  | some p => (varNamesOfSS p.1).get? var_id

/-- Sort key used to build `ORDERED_REPORT_DICT`: entries are `[var_id, ss_id]`
pairs compared primarily by subsystem id (`x.2`) and secondarily by variable
id (`x.1`). -/
def pairKeyLe (a b : Nat × Nat) : Bool :=
  (a.2 < b.2) || (a.2 == b.2 && a.1 ≤ b.1)

/-- Derived `ORDERED_REPORT_DICT` entry built from a report's declaration
list: resolve each variable to `[var_id, ss_id]` (unresolved names are dropped
with a printed warning), then sort with `pairKeyLe`. -/
def orderedFor (decl : List (String × String)) : List (Nat × Nat) :=
  let packing_list := decl.filterMap (fun p =>
    (VAR_NAME_TO_ID p.1).map (fun q => (q.2, q.1)))
  List.insertionSort (fun a b => pairKeyLe a b) packing_list

/-- The ordered wire schema of a report: for each `[var_id, ss_id]` of the
ordered list, the variable's name and struct code. `get_report_format` builds
the format string by exactly this walk, and `pack_report`/`unpack_report`
iterate it; a failed lookup is a Python `KeyError`. -/
def reportSchema (decl : List (String × String)) : Option (List (String × String)) :=
  (orderedFor decl).mapM (fun q =>
    match VAR_ID_TO_NAME q.2 q.1 with
    | none => none
    | some vn =>
      match alookup vn var_dict with
      | none => none
      | some info => some (vn, info.2.1))

/-! Scalar packing (`struct` with `>` byte order; `telemetry_codec.py` always
passes big-endian formats built from the tables). -/

/-- Python value carried in a packed field: an `int`, or a `float` represented
by its IEEE-754 binary32 bit pattern. The codec only moves the four bytes of
an `f` field; for the finite values exactly representable in binary32 — the
values consistent with scalar type `f` — equality of Python floats coincides
with equality of bit patterns (the two zeros, which Python compares equal,
each round-trip to themselves bit-exactly). -/
inductive PyValue
  | int (n : Int)
  | flt (bits : Nat)
  deriving DecidableEq, Repr

/-- Size in bytes of one scalar format code (`struct.calcsize` under `>`),
for the codes the tables use. -/
def structSize (c : String) : Option Nat :=
  if strEq c "B" then some 1
  else if strEq c "h" then some 2
  else if strEq c "H" then some 2
  else if strEq c "i" then some 4
  else if strEq c "I" then some 4
  else if strEq c "Q" then some 8
  else if strEq c "f" then some 4
  else none

/-- Acceptance test of CPython `struct.pack` for one value in one field:
unsigned codes take `0 ≤ n < 2^(8w)`, signed codes take the two's-complement
range, and `f` takes a binary32 bit pattern. -/
def fitsB (c : String) (v : PyValue) : Bool :=
  match v with
  | .int n =>
    if strEq c "B" then decide (0 ≤ n ∧ n < 2 ^ 8)
    else if strEq c "h" then decide (-(2 ^ 15) ≤ n ∧ n < 2 ^ 15)
    else if strEq c "H" then decide (0 ≤ n ∧ n < 2 ^ 16)
    else if strEq c "i" then decide (-(2 ^ 31) ≤ n ∧ n < 2 ^ 31)
    else if strEq c "I" then decide (0 ≤ n ∧ n < 2 ^ 32)
    else if strEq c "Q" then decide (0 ≤ n ∧ n < 2 ^ 64)
    else false
  | .flt bits => strEq c "f" && decide (bits < 2 ^ 32)

/-- Zero of a declared scalar type: what the packer writes for an unset slot
(Python passes the int 0; for an `f` slot `struct.pack` converts it to float
0.0, whose binary32 bit pattern is 0). -/
def zeroOf (c : String) : PyValue := if strEq c "f" then .flt 0 else .int 0

/-- Packing of one unsigned big-endian field of `w` bytes; out-of-range values
raise `struct.error` (`none`). -/
def encU (w : Nat) (n : Int) : Option (List Nat) :=
  if 0 ≤ n ∧ n < 2 ^ (8 * w) then some (toBytesBE w n.toNat) else none

/-- Packing of one signed big-endian field of `w` bytes (two's complement). -/
def encS (w : Nat) (n : Int) : Option (List Nat) :=
  if -(2 ^ (8 * w - 1)) ≤ n ∧ n < 2 ^ (8 * w - 1) then
    some (toBytesBE w ((n % (2 ^ (8 * w))).toNat))
  else none

/-- Packing of one scalar by `struct.pack`. -/
def encodeScalar (c : String) (v : PyValue) : Option (List Nat) :=
  match v with
  | .int n =>
    if strEq c "B" then encU 1 n
    else if strEq c "h" then encS 2 n
    else if strEq c "H" then encU 2 n
    else if strEq c "i" then encS 4 n
    else if strEq c "I" then encU 4 n
    else if strEq c "Q" then encU 8 n
    else none
  | .flt bits => if strEq c "f" ∧ bits < 2 ^ 32 then some (toBytesBE 4 bits) else none

/-- Unpacking of one unsigned big-endian field, consuming `w` bytes; a short
buffer raises `struct.error`. -/
def decU (w : Nat) (data : List Nat) : Option (PyValue × List Nat) :=
  if w ≤ data.length then
    some (.int (Int.ofNat (fromBytesBE (data.take w))), data.drop w)
  else none

/-- Unpacking of one signed big-endian field (two's complement). -/
def decS (w : Nat) (data : List Nat) : Option (PyValue × List Nat) :=
  if w ≤ data.length then
    let u := fromBytesBE (data.take w)
    some (.int (if u < 2 ^ (8 * w - 1) then (u : Int) else (u : Int) - 2 ^ (8 * w)),
      data.drop w)
  else none

/-- Unpacking of one scalar by `struct.unpack`. -/
def decodeScalar (c : String) (data : List Nat) : Option (PyValue × List Nat) :=
  if strEq c "B" then decU 1 data
  else if strEq c "h" then decS 2 data
  else if strEq c "H" then decU 2 data
  else if strEq c "i" then decS 4 data
  else if strEq c "I" then decU 4 data
  else if strEq c "Q" then decU 8 data
  else if strEq c "f" then
    (if 4 ≤ data.length then some (.flt (fromBytesBE (data.take 4)), data.drop 4) else none)
  else none

/-- Sequential `struct.unpack` over a format list; fails on a short buffer;
trailing bytes beyond the format are ignored (the callers slice
`data[:calcsize]` and the leftover is dropped here). -/
def decodeValues : List String → List Nat → Option (List PyValue)
  | [], _ => some []
  | c :: cs, data =>
    match decodeScalar c data with
    | none => none
    | some (v, rest) =>
      match decodeValues cs rest with
      | none => none
      | some vs => some (v :: vs)

/-- Sequential `struct.pack` over the ordered schema: encode each variable's
value (an unset slot as the zero of its declared type) and concatenate; under
`>` the fields are packed back to back with no padding. A value that does not
fit its field raises `struct.error` (`none`). -/
def encodeValues : List (String × String) → (String → Option PyValue) → Option (List Nat)
  | [], _ => some []
  | p :: ps, vals =>
    match encodeScalar p.2 ((vals p.1).getD (zeroOf p.2)) with
    | none => none
    | some bs =>
      match encodeValues ps vals with
      | none => none
      | some rest => some (bs ++ rest)

/-! Entities and codec (`telemetry_codec.py`). -/

/-- Entity `Report`: the report name and the per-variable values. Python keys
a nested dict `subsystem → name → value`; within one report a variable name
determines its subsystem, so the flattened keying by name carries the same
information. `none` is an unset slot. -/
structure Report where
  name : String
  vals : String → Option PyValue

/-- Entity `Ack`: `response_id` is an arbitrary Python int; `ack_args` is the
optional payload string represented by its UTF-8 bytes (`None` and the empty
string are both falsy at pack time). -/
structure Ack where
  response_id : Int
  ack_args : Option (List Nat)
  deriving DecidableEq, Repr

/-- Operation `pack_ack`: one header byte `[tag:3][response_id:5]` followed by
the UTF-8 payload truncated to `MAX_PACKET_SIZE - 1` bytes. The code raises
`ValueError` when `response_id > 31`; a negative id passes that check, but in
Python the header value `(6 << 5) | response_id` of a negative int is negative
(bitwise or preserves the sign bit), so `struct.pack('B', ·)` raises
`struct.error` — that branch is written out here. -/
def pack_ack (a : Ack) : Except PyErr (List Nat) :=
  let msg_type := (alookup "ack" MSG_TYPE_DICT).getD 0
  if 7 < msg_type then .error .valueErrorMsgTypeTooLarge
  else if 31 < a.response_id then .error .valueErrorResponseIdTooLarge
  else if a.response_id < 0 then .error .structError
  else
    let header := (msg_type <<< 5) ||| a.response_id.toNat
    let payload := match a.ack_args with
      | none => []
      | some s => if s.isEmpty then [] else s.take (MAX_PACKET_SIZE - 1)
    .ok (header :: payload)

/-- Operation `unpack_ack`: the low 5 bits of the header byte are the response
id; the remaining bytes are the payload (byte-level model; UTF-8 decoding
errors are not tracked). -/
def unpack_ack (data : List Nat) : Except PyErr Ack :=
  match data with
  | [] => .error .indexError
  | header :: rest => .ok ⟨Int.ofNat (header &&& 0x1F), some rest⟩

/-- Operation `pack_report`: one header byte `[tag=0:3][report_id:5]`
(`int.to_bytes(1)` raises `OverflowError` above 255), then each variable of
the ordered schema packed with its struct code; unset slots are packed as the
zero of the declared type; no scale is applied (the scaling code is commented
out in the source). `struct.pack` under `>` concatenates the fields with no
padding, so the payload is the concatenation of the per-field encodings. -/
def pack_report (r : Report) : Except PyErr (List Nat) :=
  match alookup r.name report_dict with
  | none => .error .valueErrorReportNotFound
  | some decl =>
    match reportSchema decl with
    | none => .error .keyError
    | some sch =>
      match REPORT_IDS r.name with
      | none => .error .keyError
      | some rid =>
        let header := (((alookup "reports" MSG_TYPE_DICT).getD 0) <<< 5) ||| rid
        if 256 ≤ header then .error .overflowError
        else
          match encodeValues sch r.vals with
          | none => .error .structError
          | some payload => .ok (header :: payload)

/-- Operation `unpack_report`: the low 5 bits of the header byte are the
report id; unknown ids raise `ValueError`; the payload is decoded in the same
ordered schema and the Report is rebuilt by assigning every declared slot in
order (`add_variable` per entry, later assignments shadowing earlier ones). -/
def unpack_report (data : List Nat) : Except PyErr Report :=
  match data with
  | [] => .error .indexError
  | header :: rest =>
    let report_id := header &&& ((1 <<< REPORT_ID_SIZE) - 1)
    match REPORT_NAMES report_id with
    | none => .error .valueErrorUnknownReportId
    | some name =>
      match alookup name report_dict with
      | none => .error .keyError
      | some decl =>
        match reportSchema decl with
        | none => .error .keyError
        | some sch =>
          match decodeValues (sch.map (fun p => p.2)) rest with
          | none => .error .structError
          | some vs =>
            .ok ⟨name, ((sch.map (fun p => p.1)).zip vs).foldl
              (fun f nv => fun x => if strEq x nv.1 then some nv.2 else f x)
              (fun _ => none)⟩

/-- Operation `unpack_command`, modelled through command-id resolution. The
two header bytes hold the 13-bit command id; the guard
`command_id > len(command_list)` raises `ValueError("Unknown command ID")`;
otherwise `all_cmd_names[command_id]` is read, and an out-of-range index
raises `IndexError`. Argument decoding of a resolved command is not exercised
by any claim; the resolved id and name are returned. -/
def unpack_command (data : List Nat) : Except PyErr (Nat × String) :=
  let header_int := fromBytesBE (data.take 2)
  let command_id := header_int &&& 0x1FFF
  if command_list.length < command_id then .error .valueErrorUnknownCommandId
  else match all_cmd_names.get? command_id with
    | none => .error .indexError
    | some name => .ok (command_id, name)

/-- Operation `unpack_variable`: the two header bytes hold
`[tag:3][subsystem_id:3][variable_id:10]`; unknown combinations raise
`ValueError` (a subsystem id with no table raises `KeyError` first); the
payload is one scalar in the variable's format. Returns (name, subsystem,
value). -/
def unpack_variable (data : List Nat) : Except PyErr (String × String × PyValue) :=
  let header_int := fromBytesBE (data.take 2)
  let ss_id := (header_int >>> VARIABLE_ID_SIZE) &&& 0x7
  let variable_id := header_int &&& 0x3FF
  match SS_map.find? (fun p => p.2 == ss_id) with
  | none => .error .keyError
  | some ss =>
    match (varNamesOfSS ss.1).get? variable_id with
    | none => .error .valueErrorUnknownVariableId
    | some var_name =>
      match alookup var_name var_dict with
      | none => .error .keyError
      | some info =>
        match decodeScalar info.2.1 (data.drop 2) with
        | none => .error .structError
        | some (v, _) => .ok (var_name, ss.1, v)

/-- Modelled from the spec: the Fragment decoder behind the tag-7 dispatch
(spec §4.1, §4.6, §6; the Fragment codec is absent from the sources under
review). Inverts `pack_fragment`: tid from bits 4..2 of byte 0, the sequence
number from byte 1 (high 8 bits) and the top 5 bits of byte 2 (low 5 bits),
payload the remainder. -/
def unpack_fragment (data : List Nat) : Except PyErr Fragment :=
  match data with
  | b0 :: b1 :: b2 :: rest => .ok ⟨(b0 >>> 2) &&& 0x7, (b1 <<< 5) ||| (b2 >>> 3), rest⟩
  | _ => .error .indexError

/-- Result of the universal `unpack`: one constructor per frame family it can
return. -/
inductive Unpacked
  | report (r : Report)
  | varSample (name ss : String) (v : PyValue)
  | command (id : Nat) (name : String)
  | ack (a : Ack)
  | fragment (f : Fragment)

/-- Universal `unpack`: reads the top 3 bits of byte 0 and routes to the
family decoder. The closed `MSG_TYPE_DICT` lookups evaluate to the tags
0..6 (the `getD` defaults are never taken). Tag 3 (responses) aborts with the
`NameError` the source would raise (`unpack_response` references a
`command_dict` that the module never defines). The tag-7 branch is modelled
from the spec (fragment dispatch, spec §4.1 and the §6 wire table), the
Fragment codec being absent from the sources under review. Remaining tags
raise `ValueError("Unable to unpack data - unknown format")`. -/
def unpack (data : List Nat) : Except PyErr Unpacked :=
  match data with
  | [] => .error .indexError
  | b0 :: _ =>
    let msg_type := (b0 >>> (8 - MSG_TYPE_SIZE)) &&& ((1 <<< MSG_TYPE_SIZE) - 1)
    if msg_type = (alookup "reports" MSG_TYPE_DICT).getD 64 then
      match unpack_report data with
      | .error e => .error e
      | .ok r => .ok (.report r)
    else if msg_type = (alookup "variable" MSG_TYPE_DICT).getD 64 then
      match unpack_variable data with
      | .error e => .error e
      | .ok v => .ok (.varSample v.1 v.2.1 v.2.2)
    else if msg_type = (alookup "commands" MSG_TYPE_DICT).getD 64 then
      match unpack_command data with
      | .error e => .error e
      | .ok c => .ok (.command c.1 c.2)
    else if msg_type = (alookup "responses" MSG_TYPE_DICT).getD 64 then
      .error .nameError
    else if msg_type = (alookup "ack" MSG_TYPE_DICT).getD 64 then
      match unpack_ack data with
      | .error e => .error e
      | .ok a => .ok (.ack a)
    else if msg_type = 7 then
      match unpack_fragment data with
      | .error e => .error e
      | .ok f => .ok (.fragment f)
    else .error .valueErrorUnknownFormat

/-- Per-report side conditions of the report codec, all decidable from the
static tables: the report is declared; its ordered schema resolves; its id
fits the 5-bit header field and `REPORT_NAMES` inverts it; the schema's names
and the declared names cover each other; every schema type is a supported
scalar code and is the `var_dict` type of its variable. -/
def checkReport (rn : String) : Bool :=
  match alookup rn report_dict with
  | none => false
  | some decl =>
    match reportSchema decl with
    | none => false
    | some sch =>
      match REPORT_IDS rn with
      | none => false
      | some rid =>
        decide (rid < 32) &&
        (match REPORT_NAMES rid with
         | some rn2 => strEq rn2 rn
         | none => false) &&
        sch.all (fun p => decl.any (fun q => strEq q.1 p.1)) &&
        decl.all (fun q => sch.any (fun p => strEq p.1 q.1)) &&
        sch.all (fun p => (structSize p.2).isSome) &&
        sch.all (fun p =>
          match alookup p.1 var_dict with
          | some info => strEq info.2.1 p.2
          | none => false)

/-- Test that an assignment gives every declared variable of a report a value
consistent with the variable's scalar type. -/
def wellTypedB (rn : String) (vals : String → Option PyValue) : Bool :=
  ((alookup rn report_dict).getD []).all (fun q =>
    match vals q.1 with
    | none => false
    | some v =>
      match alookup q.1 var_dict with
      | some info => fitsB info.2.1 v
      | none => false)

/-- Test that an assignment leaves every declared slot either unset or set to
a value consistent with the variable's scalar type (the precondition under
which `pack_report` succeeds). -/
def wellTypedOrUnsetB (rn : String) (vals : String → Option PyValue) : Bool :=
  ((alookup rn report_dict).getD []).all (fun q =>
    match vals q.1 with
    | none => true
    | some v =>
      match alookup q.1 var_dict with
      | some info => fitsB info.2.1 v
      | none => false)

/-- Accounting invariant tying the received map to the missing list: together
the stored keys and the missing sequence numbers are a permutation of
`range number_of_packets`. Freshly initialised transactions satisfy it. -/
def Transaction.FragmentAccounting (t : Transaction) : Prop :=
  ∃ n, t.number_of_packets = some n ∧
    (t.fragment_dict.map Prod.fst ++ t.missing_fragments).Perm (List.range n)

/-- Window triple emitted by `generate_missing_bitmaps` for window index `k`
(offset `k * 32`), written out as a function of the missing list and the
packet count. -/
def window_triple (M : List Nat) (n k : Nat) : Nat × Nat × Nat :=
  let off := k * 32
  let w := min 32 (n - off)
  let bm := bitmap_window M off w
  (off, (bm >>> 16) &&& 0xFFFF, bm &&& 0xFFFF)

/-- Folding a list of `(seq_offset, msb, lsb)` triples through
`update_missing_fragments_bitmap` with the default window size, as the
receiver-to-sender synchronisation loop does. -/
def apply_bitmaps (u : Transaction) (l : List (Nat × Nat × Nat)) : Transaction :=
  l.foldl (fun t2 trip => t2.update_missing_fragments_bitmap trip.1 trip.2.1 trip.2.2 32) u

/-! Field-level description of `add_packet`, shared by the completion
theorems. -/

theorem dictInsert_of_not_mem {α : Type} (d : List (Nat × α)) (k : Nat) (v : α)
    (h : k ∉ d.map Prod.fst) : dictInsert d k v = d ++ [(k, v)] := by
  have hcond : (d.any (fun p => p.1 == k)) ≠ true := by
    intro hany
    simp only [List.any_eq_true, beq_iff_eq] at hany
    obtain ⟨p, hp, hk⟩ := hany
    exact h (hk ▸ List.mem_map_of_mem Prod.fst hp)
  unfold dictInsert
  rw [if_neg hcond]

theorem add_packet_fields (t : Transaction) (seq : Nat) (frag : List Nat) (check : Bool) :
    (t.add_packet seq frag check).1.fragment_dict = dictInsert t.fragment_dict seq frag ∧
    (t.add_packet seq frag check).1.missing_fragments =
      (if seq ∈ t.missing_fragments then t.missing_fragments.erase seq
       else t.missing_fragments) ∧
    (t.add_packet seq frag check).1.number_of_packets = t.number_of_packets ∧
    ((t.add_packet seq frag check).2 = true ↔
      (check = true ∧ some (dictInsert t.fragment_dict seq frag).length = t.number_of_packets)) := by
  unfold Transaction.add_packet
  by_cases h1 : t.state = trans_state.RECEIVING <;>
    by_cases h2 : seq ∈ t.missing_fragments <;>
    simp only [h1, h2, ne_eq, not_true_eq_false, not_false_eq_true, ite_true, ite_false,
      if_pos, if_neg, not_not] <;>
    refine ⟨?_, ?_, ?_, ?_⟩ <;>
    (try split) <;> simp_all

/-- C5 counterexample: a fresh receiving transaction expecting one packet, fed
a fragment whose sequence number 5 is out of range, transitions to `COMPLETED`
(the code checks only `len(fragment_dict) == number_of_packets`) while
`missing_fragments` is still `[0]` — refuting the claim that the missing set
is empty at every transition to `COMPLETED`. -/
theorem add_packet_completes_with_nonempty_missing :
    ((Transaction.init 0 none (some 1) false none).add_fragment ⟨0, 5, []⟩).2 = true ∧
    ((Transaction.init 0 none (some 1) false none).add_fragment ⟨0, 5, []⟩).1.state =
      trans_state.COMPLETED ∧
    ((Transaction.init 0 none (some 1) false none).add_fragment ⟨0, 5, []⟩).1.missing_fragments ≠ [] := by
  decide

/-- C5 as amended: whenever `add_packet` (hence `add_fragment`) transitions a
transaction to `COMPLETED` (returns `True`), the received map holds exactly
`number_of_packets` fragments; the missing set is moreover empty provided the
sequence number added was among the missing ones and the transaction's books
were balanced (`FragmentAccounting`, which in-range additions preserve). -/
theorem add_packet_completed_inv (t : Transaction) (seq : Nat) (frag : List Nat) (check : Bool)
    (hacc : t.FragmentAccounting) (hseq : seq ∈ t.missing_fragments) :
    ((t.add_packet seq frag check).2 = true →
      some (t.add_packet seq frag check).1.fragment_dict.length =
        (t.add_packet seq frag check).1.number_of_packets ∧
      (t.add_packet seq frag check).1.missing_fragments = []) ∧
    (t.add_packet seq frag check).1.FragmentAccounting := by
  obtain ⟨n, hn, hperm⟩ := hacc
  obtain ⟨hdict, hmiss, hnp, hret⟩ := add_packet_fields t seq frag check
  have hnodup : (t.fragment_dict.map Prod.fst ++ t.missing_fragments).Nodup :=
    hperm.nodup_iff.mpr (List.nodup_range n)
  have hdisj : seq ∉ t.fragment_dict.map Prod.fst := by
    intro hk
    exact (List.disjoint_of_nodup_append hnodup) hk hseq
  have hins : dictInsert t.fragment_dict seq frag = t.fragment_dict ++ [(seq, frag)] :=
    dictInsert_of_not_mem _ _ _ hdisj
  have hmiss' : (t.add_packet seq frag check).1.missing_fragments =
      t.missing_fragments.erase seq := by rw [hmiss, if_pos hseq]
  have hperm' : ((t.add_packet seq frag check).1.fragment_dict.map Prod.fst ++
      (t.add_packet seq frag check).1.missing_fragments).Perm (List.range n) := by
    rw [hdict, hins, hmiss']
    have h1 : ((t.fragment_dict ++ [(seq, frag)]).map Prod.fst ++
        t.missing_fragments.erase seq) =
        (t.fragment_dict.map Prod.fst ++ ([seq] ++ t.missing_fragments.erase seq)) := by
      simp
    rw [h1]
    have h2 : ([seq] ++ t.missing_fragments.erase seq).Perm t.missing_fragments := by
      simpa using (List.perm_cons_erase hseq).symm
    exact ((List.Perm.append_left _ h2).trans hperm)
  constructor
  · intro hdone
    obtain ⟨hcheck, hlen⟩ := hret.mp hdone
    refine ⟨by rw [hdict, hnp]; exact hlen, ?_⟩
    · have hlen' : (t.add_packet seq frag check).1.fragment_dict.length = n := by
        rw [hdict]
        exact Option.some.inj (hlen.trans hn)
      have hlentot : ((t.add_packet seq frag check).1.fragment_dict.map Prod.fst ++
          (t.add_packet seq frag check).1.missing_fragments).length = n := by
        simpa using hperm'.length_eq
      have : (t.add_packet seq frag check).1.missing_fragments.length = 0 := by
        have hmap : ((t.add_packet seq frag check).1.fragment_dict.map Prod.fst).length =
            (t.add_packet seq frag check).1.fragment_dict.length := List.length_map _ _
        simp only [List.length_append, hmap, hlen'] at hlentot
        omega
      exact List.length_eq_zero.mp this
  · exact ⟨n, hnp.trans hn, hperm'⟩

/-- C5 witness: a balanced two-packet transaction receiving its first in-range
fragment satisfies the hypotheses of the amended completion invariant. -/
theorem add_packet_completed_inv_witness :
    (Transaction.init 0 none (some 2) false none).FragmentAccounting ∧
    (0 ∈ (Transaction.init 0 none (some 2) false none).missing_fragments) ∧
    ((((Transaction.init 0 none (some 2) false none).add_packet 0 [7] true).2 = true →
      some (((Transaction.init 0 none (some 2) false none).add_packet 0 [7] true).1.fragment_dict.length) =
        (((Transaction.init 0 none (some 2) false none).add_packet 0 [7] true).1.number_of_packets) ∧
      (((Transaction.init 0 none (some 2) false none).add_packet 0 [7] true).1.missing_fragments = [])) ∧
     (((Transaction.init 0 none (some 2) false none).add_packet 0 [7] true).1.FragmentAccounting)) := by
  refine ⟨⟨2, rfl, by decide⟩, by decide, ?_⟩
  exact add_packet_completed_inv _ 0 [7] true ⟨2, rfl, by decide⟩ (by decide)

/-- C1: evaluation of `create_transaction` showing the claim fails on the code.
With both dictionaries empty, a TX-side call (`is_tx=true`) without a `tid`
returns `None` instead of allocating the smallest unused id (the guard that
demands a tid tests `is_tx`, not `not is_tx`); symmetrically an RX-side call
without a `tid` — which the claim says must fail — allocates id 0, and even
allocates id 1 next, and fails with `ManagerFull` only once the RX dictionary
holds 8 entries. -/
theorem create_transaction_guards_swapped :
    (create_transaction ⟨[], []⟩ none (some "image.jpg") none none true (some 600)).1 = none ∧
    ((create_transaction ⟨[], []⟩ none none none (some 4) false none).1.map Transaction.tid) =
      some 0 ∧
    ((create_transaction
        (create_transaction ⟨[], []⟩ none none none (some 4) false none).2
        none none none (some 4) false none).1.map Transaction.tid) = some 1 := by
  refine ⟨rfl, rfl, rfl⟩

/-- C7: evaluation of `generate_x_packets` showing the claim fails on the code.
For a TX transaction on a one-byte file (one fragment, `missing_fragments =
[0]`), asking for 1 packet succeeds and matches the claimed contract (one
packed fragment, `last_batch = [0]`, missing list untouched), but asking for 2
raises `IndexError`: the loop's early-exit guard tests
`len(missing_fragments) == 0`, and since the loop never removes entries the
index `missing_fragments[1]` overruns instead of stopping after the first
fragment. -/
theorem generate_x_packets_index_overrun :
    ((Transaction.init 0 (some "f.bin") none true (some 1)).missing_fragments = [0]) ∧
    ((Transaction.init 0 (some "f.bin") none true (some 1)).generate_x_packets [42] 1 =
      .ok ({ Transaction.init 0 (some "f.bin") none true (some 1) with last_batch := [0] },
           [pack_fragment ⟨0, 0, [42]⟩])) ∧
    ((Transaction.init 0 (some "f.bin") none true (some 1)).generate_x_packets [42] 2 =
      .error .indexError) := by
  refine ⟨rfl, rfl, rfl⟩

/-- C10: with an absent hash, `get_hash_as_integers` yields `(0, 0, 0)`;
feeding that triple back through `set_hash_from_integers` sets the hash to
twenty zero bytes rather than leaving it absent, and the resulting transaction
again reads back `(0, 0, 0)` — so on the wire an absent hash is
indistinguishable from the all-zero 20-byte digest, and the absent-hash round
trip is not the identity. -/
theorem absent_hash_roundtrip (t : Transaction) (h : t.file_hash = none) :
    t.get_hash_as_integers = (0, 0, 0) ∧
    t.set_hash_from_integers 0 0 0 =
      .ok { t with file_hash := some (List.replicate 20 0) } ∧
    ({ t with file_hash := some (List.replicate 20 0) } : Transaction).file_hash ≠ t.file_hash ∧
    ({ t with file_hash := some (List.replicate 20 0) } : Transaction).get_hash_as_integers =
      (0, 0, 0) := by
  refine ⟨?_, ?_, ?_, ?_⟩
  · unfold Transaction.get_hash_as_integers
    rw [h]
  · unfold Transaction.set_hash_from_integers
    rw [if_pos (by norm_num)]
    have hz : toBytesBE 8 0 ++ toBytesBE 8 0 ++ toBytesBE 4 0 = List.replicate 20 0 := by
      decide
    rw [hz]
  · rw [h]; simp
  · rfl

/-- C10 witness: the absent-hash evaluation applied to a concrete fresh
transaction. -/
theorem absent_hash_roundtrip_witness :
    (Transaction.init 0 none (some 1) false none).file_hash = none ∧
    (Transaction.init 0 none (some 1) false none).get_hash_as_integers = (0, 0, 0) := by
  exact ⟨rfl, (absent_hash_roundtrip (Transaction.init 0 none (some 1) false none) rfl).1⟩

/-! Bit-level lemmas about the bitmap windows (claim C3). -/

theorem bitmap_window_lt (m : List Nat) (off w : Nat) : bitmap_window m off w < 2 ^ w := by
  unfold bitmap_window
  have h : ∀ (l : List Nat) (acc : Nat), (∀ i ∈ l, i < w) → acc < 2 ^ w →
      (l.foldl (fun bm bit_index => if (off + bit_index) ∈ m then bm
        else bm ||| (1 <<< ((w - 1) - bit_index))) acc) < 2 ^ w := by
    intro l
    induction l with
    | nil => intro acc _ hacc; exact hacc
    | cons x xs ih =>
      intro acc hmem hacc
      apply ih
      · intro i hi; exact hmem i (List.mem_cons_of_mem _ hi)
      · by_cases hx : (off + x) ∈ m
        · simpa [hx] using hacc
        · have hxw : x < w := hmem x (List.mem_cons_self _ _)
          have h1 : (1 <<< ((w - 1) - x)) < 2 ^ w := by
            rw [Nat.one_shiftLeft]
            exact Nat.pow_lt_pow_right (by norm_num) (by omega)
          simpa [hx] using Nat.or_lt_two_pow hacc h1
  exact h (List.range w) 0 (fun i hi => List.mem_range.mp hi) (by positivity)

theorem bitmap_window_testBit (m : List Nat) (off w p : Nat) :
    (bitmap_window m off w).testBit p =
      (decide (p < w) && decide ((off + ((w - 1) - p)) ∉ m)) := by
  have hgo : ∀ (k p : Nat),
      (((List.range k).foldl (fun bm bit_index => if (off + bit_index) ∈ m then bm
        else bm ||| (1 <<< ((w - 1) - bit_index))) 0)).testBit p =
      decide (∃ i, i < k ∧ p = (w - 1) - i ∧ (off + i) ∉ m) := by
    intro k
    induction k with
    | zero => intro p; simp
    | succ k ih =>
      intro p
      rw [List.range_succ, List.foldl_append]
      simp only [List.foldl_cons, List.foldl_nil]
      by_cases hx : (off + k) ∈ m
      · rw [if_pos hx, ih]
        apply Bool.decide_congr
        constructor
        · rintro ⟨i, hik, hpi, him⟩; exact ⟨i, by omega, hpi, him⟩
        · rintro ⟨i, hik, hpi, him⟩
          refine ⟨i, ?_, hpi, him⟩
          rcases Nat.lt_succ_iff_lt_or_eq.mp hik with h | h
          · exact h
          · subst h; exact absurd hx him
      · rw [if_neg hx, Nat.testBit_lor, ih, Nat.one_shiftLeft, Nat.testBit_two_pow]
        rw [← Bool.decide_or]
        apply Bool.decide_congr
        constructor
        · rintro (⟨i, hik, hpi, him⟩ | hpk)
          · exact ⟨i, by omega, hpi, him⟩
          · exact ⟨k, by omega, hpk.symm, hx⟩
        · rintro ⟨i, hik, hpi, him⟩
          rcases Nat.lt_succ_iff_lt_or_eq.mp hik with h | h
          · exact Or.inl ⟨i, h, hpi, him⟩
          · subst h; exact Or.inr hpi.symm
  rw [show bitmap_window m off w = ((List.range w).foldl
      (fun bm bit_index => if (off + bit_index) ∈ m then bm
        else bm ||| (1 <<< ((w - 1) - bit_index))) 0) from rfl, hgo]
  rw [← Bool.decide_and]
  apply Bool.decide_congr
  constructor
  · rintro ⟨i, hik, hpi, him⟩
    have hpw : p = (w - 1) - i := hpi
    constructor
    · omega
    · have : (w - 1) - p = i := by omega
      rw [this]; exact him
  · rintro ⟨hpw, him⟩
    exact ⟨(w - 1) - p, by omega, by omega, him⟩

theorem recombine_msb_lsb (b : Nat) (hb : b < 2 ^ 32) :
    ((((b >>> 16) &&& 0xFFFF) <<< 16) ||| (b &&& 0xFFFF)) = b := by
  apply Nat.eq_of_testBit_eq
  intro i
  have hFFFF : (0xFFFF : Nat) = 2 ^ 16 - 1 := by norm_num
  rw [Nat.testBit_lor, Nat.testBit_shiftLeft, Nat.testBit_land, Nat.testBit_land, hFFFF,
    Nat.testBit_two_pow_sub_one, Nat.testBit_two_pow_sub_one, Nat.testBit_shiftRight]
  by_cases h16 : i < 16
  · have : ¬(i ≥ 16) := by omega
    simp [h16, this]
  · by_cases h32 : i < 32
    · have h1 : i ≥ 16 := by omega
      have h2 : 16 + (i - 16) = i := by omega
      have h3 : i - 16 < 16 := by omega
      have h4 : ¬(i < 16) := h16
      simp [h1, h2, h3, h4]
    · have hbf : b.testBit i = false := by
        apply Nat.testBit_lt_two_pow
        exact lt_of_lt_of_le hb (Nat.pow_le_pow_right (by norm_num) (by omega))
      have h1 : i ≥ 16 := by omega
      have h2 : 16 + (i - 16) = i := by omega
      have h3 : ¬(i - 16 < 16) := by omega
      have h4 : ¬(i < 16) := h16
      simp [h1, h2, h3, h4, hbf]

theorem shift_and_one_eq_testBit (b q : Nat) : ((b >>> q) &&& 1 = 1) ↔ b.testBit q = true := by
  rw [Nat.and_one_is_mod, Nat.shiftRight_eq_div_pow, Nat.testBit_to_div_mod]
  simp

theorem updateWindow_mem (bitmap off w : Nat) (s : Finset Nat) (j : Nat) :
    (j ∈ (List.range w).foldl (fun s2 i =>
        if (bitmap >>> ((w - 1) - i)) &&& 1 = 1 then s2.erase (off + i)
        else insert (off + i) s2) s) ↔
      (if off ≤ j ∧ j < off + w then ¬((bitmap >>> ((w - 1) - (j - off))) &&& 1 = 1)
       else j ∈ s) := by
  have hgo : ∀ (k : Nat), k ≤ w →
      ((j ∈ (List.range k).foldl (fun s2 i =>
        if (bitmap >>> ((w - 1) - i)) &&& 1 = 1 then s2.erase (off + i)
        else insert (off + i) s2) s) ↔
      (if off ≤ j ∧ j < off + k then ¬((bitmap >>> ((w - 1) - (j - off))) &&& 1 = 1)
       else j ∈ s)) := by
    intro k
    induction k with
    | zero =>
      intro _
      simp only [List.range_zero, List.foldl_nil]
      rw [if_neg (by omega)]
    | succ k ih =>
      intro hk
      rw [List.range_succ, List.foldl_append]
      simp only [List.foldl_cons, List.foldl_nil]
      by_cases hj : j = off + k
      · subst hj
        rw [if_pos (by omega : off ≤ off + k ∧ off + k < off + (k + 1))]
        rw [(by omega : (off + k) - off = k)]
        by_cases hbit : (bitmap >>> ((w - 1) - k)) &&& 1 = 1
        · rw [if_pos hbit]
          constructor
          · intro hmem
            exact absurd rfl (Finset.mem_erase.mp hmem).1
          · intro hneg
            exact absurd hbit hneg
        · rw [if_neg hbit]
          constructor
          · intro _; exact hbit
          · intro _; exact Finset.mem_insert_self _ _
      · have hstep : (j ∈ (if (bitmap >>> ((w - 1) - k)) &&& 1 = 1
            then (List.foldl (fun s2 i => if bitmap >>> (w - 1 - i) &&& 1 = 1
                    then s2.erase (off + i) else insert (off + i) s2) s (List.range k)).erase (off + k)
            else insert (off + k) (List.foldl (fun s2 i => if bitmap >>> (w - 1 - i) &&& 1 = 1
                    then s2.erase (off + i) else insert (off + i) s2) s (List.range k)))) ↔
            j ∈ List.foldl (fun s2 i => if bitmap >>> (w - 1 - i) &&& 1 = 1
                    then s2.erase (off + i) else insert (off + i) s2) s (List.range k) := by
          by_cases hbit : (bitmap >>> ((w - 1) - k)) &&& 1 = 1
          · rw [if_pos hbit, Finset.mem_erase]
            simp [hj]
          · rw [if_neg hbit, Finset.mem_insert]
            simp [hj]
        rw [hstep, ih (by omega)]
        by_cases hc : off ≤ j ∧ j < off + k
        · rw [if_pos hc, if_pos (by omega : off ≤ j ∧ j < off + (k + 1))]
        · rw [if_neg hc, if_neg (by omega : ¬(off ≤ j ∧ j < off + (k + 1)))]
  exact hgo w le_rfl

theorem generate_missing_bitmaps_eq (t : Transaction) (n : Nat)
    (hnp : t.number_of_packets = some n) :
    t.generate_missing_bitmaps 32 =
      (List.range ((n + 31) / 32)).map (window_triple t.missing_fragments n) := by
  unfold Transaction.generate_missing_bitmaps
  rw [hnp]
  dsimp only
  rw [(by omega : n + 32 - 1 = n + 31)]
  rfl

theorem update_window_triple_spec (n : Nat) (M : List Nat) (u : Transaction)
    (hnp : u.number_of_packets = some n) (k : Nat) (hk : k * 32 < n) :
    (u.update_missing_fragments_bitmap (window_triple M n k).1
        (window_triple M n k).2.1 (window_triple M n k).2.2 32).number_of_packets = some n ∧
    ∀ j, (j ∈ (u.update_missing_fragments_bitmap (window_triple M n k).1
            (window_triple M n k).2.1 (window_triple M n k).2.2 32).missing_fragments ↔
      (if k * 32 ≤ j ∧ j < min (k * 32 + 32) n then j ∈ M else j ∈ u.missing_fragments)) := by
  have hw : min 32 (n - k * 32) ≠ 0 := by omega
  have hbm_lt : bitmap_window M (k * 32) (min 32 (n - k * 32)) < 2 ^ 32 :=
    lt_of_lt_of_le (bitmap_window_lt _ _ _) (Nat.pow_le_pow_right (by norm_num) (by omega))
  have hrecomb : ((((bitmap_window M (k * 32) (min 32 (n - k * 32))) >>> 16) &&& 0xFFFF) <<< 16) |||
      ((bitmap_window M (k * 32) (min 32 (n - k * 32))) &&& 0xFFFF) =
      bitmap_window M (k * 32) (min 32 (n - k * 32)) := recombine_msb_lsb _ hbm_lt
  unfold Transaction.update_missing_fragments_bitmap window_triple
  rw [hnp]
  simp only [if_neg hw, hrecomb]
  refine ⟨by trivial, ?_⟩
  intro j
  set w := min 32 (n - k * 32) with hwdef
  show j ∈ Finset.sort _ _ ↔ _
  rw [Finset.mem_sort, updateWindow_mem]
  have hwin_iff : (k * 32 ≤ j ∧ j < k * 32 + w) ↔ (k * 32 ≤ j ∧ j < min (k * 32 + 32) n) := by
    omega
  by_cases hwin : k * 32 ≤ j ∧ j < k * 32 + w
  · rw [if_pos hwin, if_pos (hwin_iff.mp hwin)]
    rw [shift_and_one_eq_testBit, bitmap_window_testBit]
    have hp1 : (w - 1) - (j - k * 32) < w := by omega
    have hp2 : k * 32 + ((w - 1) - ((w - 1) - (j - k * 32))) = j := by omega
    rw [hp2]
    simp only [Bool.and_eq_true, decide_eq_true_eq]
    constructor
    · intro h
      by_contra hjm
      exact h ⟨hp1, hjm⟩
    · intro hjm h
      exact h.2 hjm
  · rw [if_neg hwin, if_neg (fun hc => hwin (hwin_iff.mpr hc))]
    exact List.mem_toFinset

theorem apply_bitmaps_suffix (n : Nat) (M : List Nat) :
    ∀ (mrem k : Nat), k + mrem = (n + 31) / 32 →
    ∀ (u : Transaction), u.number_of_packets = some n →
      (apply_bitmaps u ((List.range' k mrem).map (window_triple M n))).number_of_packets =
        some n ∧
      ∀ j, (j ∈ (apply_bitmaps u ((List.range' k mrem).map
            (window_triple M n))).missing_fragments ↔
        (if 32 * k ≤ j ∧ j < n then j ∈ M else j ∈ u.missing_fragments)) := by
  intro mrem
  induction mrem with
  | zero =>
    intro k hk u hnp
    refine ⟨hnp, ?_⟩
    intro j
    have hdm := Nat.div_add_mod (n + 31) 32
    have hmod : (n + 31) % 32 < 32 := Nat.mod_lt _ (by norm_num)
    rw [if_neg (by omega)]
    exact Iff.rfl
  | succ mrem ih =>
    intro k hk u hnp
    have hdm := Nat.div_add_mod (n + 31) 32
    have hmod : (n + 31) % 32 < 32 := Nat.mod_lt _ (by norm_num)
    have hoff : k * 32 < n := by omega
    have hcons : (List.range' k (mrem + 1)).map (window_triple M n) =
        window_triple M n k :: (List.range' (k + 1) mrem).map (window_triple M n) := rfl
    have happ : ∀ (x : Nat × Nat × Nat) (l : List (Nat × Nat × Nat)),
        apply_bitmaps u (x :: l) =
          apply_bitmaps (u.update_missing_fragments_bitmap x.1 x.2.1 x.2.2 32) l :=
      fun x l => rfl
    have hspec := update_window_triple_spec n M u hnp k hoff
    have hih := ih (k + 1) (by omega) _ hspec.1
    rw [hcons, happ]
    refine ⟨hih.1, ?_⟩
    intro j
    rw [hih.2 j]
    by_cases h1 : 32 * (k + 1) ≤ j ∧ j < n
    · rw [if_pos h1, if_pos (by omega)]
    · rw [if_neg h1, hspec.2 j]
      by_cases h2 : k * 32 ≤ j ∧ j < min (k * 32 + 32) n
      · rw [if_pos h2, if_pos (by omega)]
      · rw [if_neg h2, if_neg (by omega)]

/-- C3: bitmap synchronisation is an exact inverse. For a transaction `t` with
`number_of_packets = n` and any missing set within `0..n-1`, feeding every
triple produced by `generate_missing_bitmaps(max_bits=32)`, in order, into
`update_missing_fragments_bitmap` of any transaction `u` with the same `n`
(and missing entries within range — in particular a fresh one, whose missing
list is all of `0..n-1`) reconstructs exactly `t`'s missing set. -/
theorem bitmap_sync_inverse (n : Nat) (t u : Transaction)
    (ht : t.number_of_packets = some n) (hu : u.number_of_packets = some n)
    (htm : ∀ s ∈ t.missing_fragments, s < n) (hum : ∀ s ∈ u.missing_fragments, s < n) :
    (apply_bitmaps u (t.generate_missing_bitmaps 32)).missing_fragments.toFinset =
      t.missing_fragments.toFinset := by
  rw [generate_missing_bitmaps_eq t n ht, List.range_eq_range']
  have h := apply_bitmaps_suffix n t.missing_fragments ((n + 31) / 32) 0 (by omega) u hu
  ext j
  rw [List.mem_toFinset, List.mem_toFinset, h.2 j]
  by_cases hj : j < n
  · rw [if_pos (by omega)]
  · rw [if_neg (by omega)]
    constructor
    · intro hmem; exact absurd (hum j hmem) hj
    · intro hmem; exact absurd (htm j hmem) hj

/-- C3 witness: the spec's own scenario — ten packets, fragments
`{0, 1, 4, 5, 7}` received (missing `{2, 3, 6, 8, 9}`), synchronised onto a
fresh transaction expecting ten packets. -/
theorem bitmap_sync_inverse_witness :
    ({ Transaction.init 0 none (some 10) false none with
        missing_fragments := [2, 3, 6, 8, 9] } : Transaction).number_of_packets = some 10 ∧
    (Transaction.init 1 none (some 10) false none).number_of_packets = some 10 ∧
    (∀ s ∈ ({ Transaction.init 0 none (some 10) false none with
        missing_fragments := [2, 3, 6, 8, 9] } : Transaction).missing_fragments, s < 10) ∧
    (∀ s ∈ (Transaction.init 1 none (some 10) false none).missing_fragments, s < 10) ∧
    (apply_bitmaps (Transaction.init 1 none (some 10) false none)
        (({ Transaction.init 0 none (some 10) false none with
            missing_fragments := [2, 3, 6, 8, 9] } : Transaction).generate_missing_bitmaps
          32)).missing_fragments.toFinset =
      ({ Transaction.init 0 none (some 10) false none with
          missing_fragments := [2, 3, 6, 8, 9] } : Transaction).missing_fragments.toFinset := by
  refine ⟨rfl, rfl, by decide, by decide, ?_⟩
  exact bitmap_sync_inverse 10 _ _ rfl rfl (by decide) (by decide)

/-- C2: the Fragment wire frame, modelled from the spec (the Fragment codec is
absent from the sources under review; `transport_layer.py` only imports and
calls it). Packing emits the 3-byte header — byte 0 is `224 + 4·tid`
(`[tag=7:3][tid:3]` in the top six bits), byte 1 is `seq / 32` (sequence bits
12..5), byte 2 is `seq % 32 · 8` (the low 5 sequence bits in its top 5 bits) —
followed by the opaque payload of at most `MAX_PACKET_SIZE` bytes; the
universal `unpack`, seeing top-3-bits tag 7 in byte 0, dispatches to the
Fragment decoder and recovers `(tid, sequence_number, payload)` exactly. -/
theorem fragment_frame_roundtrip (tid seq : Nat) (payload : List Nat)
    (htid : tid < 8) (hseq : seq < 2 ^ 13) (hlen : payload.length ≤ MAX_PACKET_SIZE) :
    pack_fragment ⟨tid, seq, payload⟩ =
      (224 + 4 * tid) :: (seq / 32) :: (seq % 32 * 8) :: payload ∧
    (224 + 4 * tid) >>> (8 - MSG_TYPE_SIZE) = 7 ∧
    unpack (pack_fragment ⟨tid, seq, payload⟩) = .ok (.fragment ⟨tid, seq, payload⟩) := by
  have hb0 : (7 <<< 5) ||| (tid <<< 2) = 224 + 4 * tid := by
    interval_cases tid <;> decide
  have hb1 : (seq >>> 5) &&& 0xFF = seq / 32 := by
    rw [Nat.shiftRight_eq_div_pow]
    rw [(by norm_num : (0xFF : Nat) = 2 ^ 8 - 1), Nat.and_pow_two_sub_one_eq_mod]
    omega
  have hb2 : (seq &&& 0x1F) <<< 3 = seq % 32 * 8 := by
    rw [(by norm_num : (0x1F : Nat) = 2 ^ 5 - 1), Nat.and_pow_two_sub_one_eq_mod,
      Nat.shiftLeft_eq]
    try norm_num
  have hpack : pack_fragment ⟨tid, seq, payload⟩ =
      (224 + 4 * tid) :: (seq / 32) :: (seq % 32 * 8) :: payload := by
    unfold pack_fragment
    rw [hb0, hb1, hb2]
  have hshift : (224 + 4 * tid) >>> (8 - MSG_TYPE_SIZE) = 7 := by
    show (224 + 4 * tid) >>> 5 = 7
    rw [Nat.shiftRight_eq_div_pow]
    omega
  refine ⟨hpack, hshift, ?_⟩
  rw [hpack]
  have hmsg : ((224 + 4 * tid) >>> (8 - MSG_TYPE_SIZE)) &&& ((1 <<< MSG_TYPE_SIZE) - 1) = 7 := by
    rw [hshift]
    decide
  have htid2 : ((224 + 4 * tid) >>> 2) &&& 0x7 = tid := by
    interval_cases tid <;> decide
  have hseqr : ((seq / 32) <<< 5) ||| ((seq % 32 * 8) >>> 3) = seq := by
    rw [Nat.shiftLeft_eq, Nat.shiftRight_eq_div_pow]
    have h8 : seq % 32 * 8 / 2 ^ 3 = seq % 32 := by omega
    rw [h8]
    have hlt : seq % 32 < 2 ^ 5 := by omega
    calc seq / 32 * 2 ^ 5 ||| seq % 32 = 2 ^ 5 * (seq / 32) + seq % 32 := by
          rw [mul_comm (seq / 32) (2 ^ 5)]
          exact (Nat.mul_add_lt_is_or hlt _).symm
      _ = seq := by omega
  simp only [unpack]
  rw [hmsg]
  rw [if_neg (by decide), if_neg (by decide), if_neg (by decide), if_neg (by decide),
    if_neg (by decide), if_pos rfl]
  simp only [unpack_fragment]
  rw [htid2, hseqr]

/-- C2 witness: fragment `(tid=3, seq=5000)` with a three-byte payload. -/
theorem fragment_frame_roundtrip_witness :
    (3 : Nat) < 8 ∧ (5000 : Nat) < 2 ^ 13 ∧ ([1, 2, 3] : List Nat).length ≤ MAX_PACKET_SIZE ∧
    unpack (pack_fragment ⟨3, 5000, [1, 2, 3]⟩) = .ok (.fragment ⟨3, 5000, [1, 2, 3]⟩) :=
  ⟨by decide, by decide, by decide,
    (fragment_frame_roundtrip 3 5000 [1, 2, 3] (by decide) (by decide) (by decide)).2.2⟩

/-- C8: evaluation of `unpack_command` showing the claim fails on the code at
the boundary id. The tables define 21 commands (ids 0..20). For every
undefined id from 22 up to `2^13 - 1` the claimed
`ValueError("Unknown command ID")` is indeed raised, but at the boundary id 21
— the id equal to the number of defined commands — the guard
`command_id > len(command_list)` does not fire and `all_cmd_names[21]` raises
`IndexError` instead of the claimed decoding error. Id 20 still resolves. -/
theorem unpack_command_boundary_id :
    command_list.length = 21 ∧
    unpack_command [0x40, 0x15] = .error .indexError ∧
    (∀ cid : Nat, 22 ≤ cid → cid < 2 ^ 13 →
      unpack_command [0x40 + cid / 256, cid % 256] = .error .valueErrorUnknownCommandId) ∧
    unpack_command [0x40, 0x14] = .ok (20, "TRANS_PAYLOAD") := by
  refine ⟨rfl, rfl, ?_, rfl⟩
  intro cid h22 h13
  unfold unpack_command
  have hhdr : fromBytesBE ([0x40 + cid / 256, cid % 256].take 2) = 16384 + cid := by
    show (0 * 256 + (0x40 + cid / 256)) * 256 + cid % 256 = 16384 + cid
    omega
  rw [hhdr]
  have hmask : (16384 + cid) &&& 0x1FFF = cid := by
    rw [(by norm_num : (0x1FFF : Nat) = 2 ^ 13 - 1), Nat.and_pow_two_sub_one_eq_mod]
    omega
  dsimp only
  rw [hmask]
  rw [if_pos (by have hlen21 : command_list.length = 21 := rfl; omega)]

/-- C8 witness: the quantified conjunct applied at the largest undefined id. -/
theorem unpack_command_boundary_id_witness :
    (22 : Nat) ≤ 8191 ∧ (8191 : Nat) < 2 ^ 13 ∧
    unpack_command [0x40 + 8191 / 256, 8191 % 256] = .error .valueErrorUnknownCommandId :=
  ⟨by decide, by decide, unpack_command_boundary_id.2.2.1 8191 (by decide) (by decide)⟩

/-- C9: the 5-bit response-status bound of `pack_ack`. Every status in `0..31`
packs into the single header byte `(6 <<< 5) ||| status` followed by the whole
UTF-8 payload (whenever the payload fits the `MAX_PACKET_SIZE - 1` truncation
bound); every status outside `0..31` fails to pack — above 31 through the
explicit 5-bit `ValueError` check, below 0 through `struct.error` on the
negative header value, both overflow of the 5-bit field; in particular status
31 packs (header byte 223) and status 32 fails. -/
theorem pack_ack_status_range (s : Int) (args : List Nat)
    (hlen : args.length ≤ MAX_PACKET_SIZE - 1) :
    (0 ≤ s ∧ s ≤ 31 →
      pack_ack ⟨s, some args⟩ = .ok ((((6 : Nat) <<< 5) ||| s.toNat) :: args)) ∧
    (s < 0 ∨ 31 < s → ∃ e, pack_ack ⟨s, some args⟩ = .error e) ∧
    pack_ack ⟨31, some args⟩ = .ok (223 :: args) ∧
    pack_ack ⟨32, some args⟩ = .error .valueErrorResponseIdTooLarge := by
  have hm : (alookup "ack" MSG_TYPE_DICT).getD 0 = 6 := rfl
  have hpay : (if args.isEmpty then ([] : List Nat) else args.take (MAX_PACKET_SIZE - 1)) =
      args := by
    by_cases hargs : args = []
    · subst hargs; rfl
    · rw [if_neg (by simpa [List.isEmpty_iff] using hargs)]
      exact List.take_of_length_le hlen
  refine ⟨?_, ?_, ?_, ?_⟩
  · rintro ⟨hs0, hs31⟩
    unfold pack_ack
    rw [hm]
    dsimp only
    rw [if_neg (by omega), if_neg (by omega), if_neg (by omega), hpay]
  · rintro (hneg | hbig)
    · refine ⟨.structError, ?_⟩
      unfold pack_ack
      rw [hm]
      dsimp only
      rw [if_neg (by omega), if_neg (by omega), if_pos hneg]
    · refine ⟨.valueErrorResponseIdTooLarge, ?_⟩
      unfold pack_ack
      rw [hm]
      dsimp only
      rw [if_neg (by omega), if_pos hbig]
  · unfold pack_ack
    rw [hm]
    dsimp only
    rw [if_neg (by omega), if_neg (by omega), if_neg (by omega), hpay,
      (by decide : (6 : Nat) <<< 5 ||| Int.toNat 31 = 223)]
  · rfl

/-- C9 witness: status 31 with payload "OK". -/
theorem pack_ack_status_range_witness :
    ([79, 75] : List Nat).length ≤ MAX_PACKET_SIZE - 1 ∧
    pack_ack ⟨31, some [79, 75]⟩ = .ok (223 :: [79, 75]) :=
  ⟨by decide, (pack_ack_status_range 31 [79, 75] (by decide)).2.2.1⟩

/-! Scalar round-trip lemmas (claims C4 and C6). -/

theorem strEq_refl (a : String) : strEq a a = true := (strEq_iff a a).mpr rfl

theorem take_append_of_length (l r : List Nat) (w : Nat) (hw : l.length = w) :
    (l ++ r).take w = l ∧ (l ++ r).drop w = r := by
  subst hw
  exact ⟨List.take_left l r, List.drop_left l r⟩

theorem encU_dec (w : Nat) (n : Int) (h0 : 0 ≤ n) (h1 : n < 2 ^ (8 * w)) :
    encU w n = some (toBytesBE w n.toNat) ∧
    ∀ rest, decU w (toBytesBE w n.toNat ++ rest) = some (.int n, rest) := by
  have hKcast : (((2 ^ (8 * w) : Nat) : Int)) = 2 ^ (8 * w) := by push_cast; rfl
  have hlt : n.toNat < 2 ^ (8 * w) := by
    rw [← hKcast] at h1
    omega
  have h256 : (256 : Nat) ^ w = 2 ^ (8 * w) := by
    rw [(by norm_num : (256 : Nat) = 2 ^ 8), ← pow_mul]
  constructor
  · unfold encU
    rw [if_pos ⟨h0, h1⟩]
  · intro rest
    obtain ⟨htake, hdrop⟩ :=
      take_append_of_length (toBytesBE w n.toNat) rest w (toBytesBE_length w n.toNat)
    unfold decU
    rw [if_pos (by simp [toBytesBE_length])]
    rw [htake, hdrop, fromBytesBE_toBytesBE w n.toNat (by rw [h256]; exact hlt)]
    have hofNat : Int.ofNat n.toNat = n := by
      simpa using Int.toNat_of_nonneg h0
    rw [hofNat]

theorem encS_dec (w : Nat) (hw : 0 < w) (n : Int)
    (h0 : -(2 ^ (8 * w - 1)) ≤ n) (h1 : n < 2 ^ (8 * w - 1)) :
    ∃ u : Nat, encS w n = some (toBytesBE w u) ∧ u < 2 ^ (8 * w) ∧
      ∀ rest, decS w (toBytesBE w u ++ rest) = some (.int n, rest) := by
  have hKH : (2 : Int) ^ (8 * w) = 2 ^ (8 * w - 1) * 2 := by
    rw [← pow_succ]
    congr 1
    omega
  have hKHn : (2 : Nat) ^ (8 * w) = 2 ^ (8 * w - 1) * 2 := by
    rw [← pow_succ]
    congr 1
    omega
  have hHpos : (0 : Int) < 2 ^ (8 * w - 1) := by positivity
  have hemod : n % (2 ^ (8 * w)) = if 0 ≤ n then n else n + 2 ^ (8 * w) := by
    by_cases hn : 0 ≤ n
    · rw [if_pos hn]
      exact Int.emod_eq_of_lt hn (by omega)
    · rw [if_neg hn]
      have h2 : (n + 2 ^ (8 * w) * 1) % (2 ^ (8 * w)) = n % (2 ^ (8 * w)) :=
        Int.add_mul_emod_self_left n (2 ^ (8 * w)) 1
      rw [mul_one] at h2
      rw [← h2]
      exact Int.emod_eq_of_lt (by omega) (by omega)
  set u : Nat := ((n % (2 ^ (8 * w))).toNat) with hu
  have hcastH : (((2 ^ (8 * w - 1) : Nat) : Int)) = 2 ^ (8 * w - 1) := by push_cast; rfl
  have hcastK : (((2 ^ (8 * w) : Nat) : Int)) = 2 ^ (8 * w) := by push_cast; rfl
  have huval : (u : Int) = if 0 ≤ n then n else n + 2 ^ (8 * w) := by
    rw [hu, Int.toNat_of_nonneg (by rw [hemod]; split <;> omega), hemod]
  have huK : u < 2 ^ (8 * w) := by
    have : (u : Int) < ((2 ^ (8 * w) : Nat) : Int) := by
      rw [hcastK, huval]
      split <;> omega
    exact_mod_cast this
  have h256 : (256 : Nat) ^ w = 2 ^ (8 * w) := by
    rw [(by norm_num : (256 : Nat) = 2 ^ 8), ← pow_mul]
  refine ⟨u, ?_, huK, ?_⟩
  · unfold encS
    rw [if_pos ⟨h0, h1⟩]
  · intro rest
    obtain ⟨htake, hdrop⟩ := take_append_of_length (toBytesBE w u) rest w (toBytesBE_length w u)
    unfold decS
    rw [if_pos (by simp [toBytesBE_length])]
    rw [htake, hdrop, fromBytesBE_toBytesBE w u (by rw [h256]; exact huK)]
    have hval : (if u < 2 ^ (8 * w - 1) then (u : Int) else (u : Int) - 2 ^ (8 * w)) = n := by
      by_cases hn : 0 ≤ n
      · have hulow : u < 2 ^ (8 * w - 1) := by
          have hx : (u : Int) < ((2 ^ (8 * w - 1) : Nat) : Int) := by
            rw [hcastH, huval, if_pos hn]
            omega
          exact_mod_cast hx
        rw [if_pos hulow, huval, if_pos hn]
      · have hKlow : ¬(u < 2 ^ (8 * w - 1)) := by
          intro hcon
          have hx : (u : Int) < ((2 ^ (8 * w - 1) : Nat) : Int) := by exact_mod_cast hcon
          rw [hcastH, huval, if_neg hn] at hx
          omega
        rw [if_neg hKlow, huval, if_neg hn]
        ring
    dsimp only
    rw [hval]

theorem encodeScalar_roundtrip (c : String) (v : PyValue) (hfit : fitsB c v = true) :
    ∃ bs, encodeScalar c v = some bs ∧
      ∀ rest, decodeScalar c (bs ++ rest) = some (v, rest) := by
  cases v with
  | int n =>
    by_cases hB : strEq c "B" = true
    · rw [(strEq_iff _ _).mp hB]
      rw [(strEq_iff _ _).mp hB, show fitsB "B" (.int n) = decide (0 ≤ n ∧ n < 2 ^ 8) from rfl,
        decide_eq_true_eq] at hfit
      obtain ⟨he, hd⟩ := encU_dec 1 n hfit.1 (by exact_mod_cast hfit.2)
      exact ⟨_, he, hd⟩
    · by_cases hh : strEq c "h" = true
      · rw [(strEq_iff _ _).mp hh]
        rw [(strEq_iff _ _).mp hh,
          show fitsB "h" (.int n) = decide (-(2 ^ 15) ≤ n ∧ n < 2 ^ 15) from rfl,
          decide_eq_true_eq] at hfit
        obtain ⟨u, he, hu, hd⟩ := encS_dec 2 (by norm_num) n
          (by exact_mod_cast hfit.1) (by exact_mod_cast hfit.2)
        exact ⟨_, he, hd⟩
      · by_cases hH : strEq c "H" = true
        · rw [(strEq_iff _ _).mp hH]
          rw [(strEq_iff _ _).mp hH,
            show fitsB "H" (.int n) = decide (0 ≤ n ∧ n < 2 ^ 16) from rfl,
            decide_eq_true_eq] at hfit
          obtain ⟨he, hd⟩ := encU_dec 2 n hfit.1 (by exact_mod_cast hfit.2)
          exact ⟨_, he, hd⟩
        · by_cases hi : strEq c "i" = true
          · rw [(strEq_iff _ _).mp hi]
            rw [(strEq_iff _ _).mp hi,
              show fitsB "i" (.int n) = decide (-(2 ^ 31) ≤ n ∧ n < 2 ^ 31) from rfl,
              decide_eq_true_eq] at hfit
            obtain ⟨u, he, hu, hd⟩ := encS_dec 4 (by norm_num) n
              (by exact_mod_cast hfit.1) (by exact_mod_cast hfit.2)
            exact ⟨_, he, hd⟩
          · by_cases hI : strEq c "I" = true
            · rw [(strEq_iff _ _).mp hI]
              rw [(strEq_iff _ _).mp hI,
                show fitsB "I" (.int n) = decide (0 ≤ n ∧ n < 2 ^ 32) from rfl,
                decide_eq_true_eq] at hfit
              obtain ⟨he, hd⟩ := encU_dec 4 n hfit.1 (by exact_mod_cast hfit.2)
              exact ⟨_, he, hd⟩
            · by_cases hQ : strEq c "Q" = true
              · rw [(strEq_iff _ _).mp hQ]
                rw [(strEq_iff _ _).mp hQ,
                  show fitsB "Q" (.int n) = decide (0 ≤ n ∧ n < 2 ^ 64) from rfl,
                  decide_eq_true_eq] at hfit
                obtain ⟨he, hd⟩ := encU_dec 8 n hfit.1 (by exact_mod_cast hfit.2)
                exact ⟨_, he, hd⟩
              · exfalso
                have hfalse : fitsB c (.int n) = false := by
                  simp only [fitsB]
                  rw [if_neg hB, if_neg hh, if_neg hH, if_neg hi, if_neg hI, if_neg hQ]
                rw [hfalse] at hfit
                exact Bool.false_ne_true hfit
  | flt bits =>
    unfold fitsB at hfit
    rw [Bool.and_eq_true, decide_eq_true_eq] at hfit
    rw [(strEq_iff _ _).mp hfit.1]
    refine ⟨toBytesBE 4 bits, ?_, ?_⟩
    · simp only [encodeScalar]
      rw [if_pos ⟨rfl, hfit.2⟩]
    · intro rest
      obtain ⟨htake, hdrop⟩ :=
        take_append_of_length (toBytesBE 4 bits) rest 4 (toBytesBE_length 4 bits)
      unfold decodeScalar
      rw [if_neg (by decide), if_neg (by decide), if_neg (by decide), if_neg (by decide),
        if_neg (by decide), if_neg (by decide), if_pos (strEq_refl "f")]
      rw [if_pos (by simp [toBytesBE_length])]
      rw [htake, hdrop, fromBytesBE_toBytesBE 4 bits (by norm_num at hfit ⊢; exact hfit.2)]

/-! Report-level lemmas (claims C4 and C6): the side conditions packed into
`checkReport`, zero encodings of unset slots, the sequential-field structure of
`encodeValues`, the shadowing dict-rebuild of `unpack_report`, and the packing
order of `ORDERED_REPORT_DICT`. -/

theorem checkReport_spec (rn : String) (hck : checkReport rn = true) :
    ∃ decl sch rid, alookup rn report_dict = some decl ∧ reportSchema decl = some sch ∧
      REPORT_IDS rn = some rid ∧ rid < 32 ∧ REPORT_NAMES rid = some rn ∧
      (∀ p ∈ sch, decl.any (fun q => strEq q.1 p.1) = true) ∧
      (∀ q ∈ decl, sch.any (fun p => strEq p.1 q.1) = true) ∧
      (∀ p ∈ sch, (structSize p.2).isSome = true) ∧
      (∀ p ∈ sch, (match alookup p.1 var_dict with
        | some info => strEq info.2.1 p.2
        | none => false) = true) := by
  unfold checkReport at hck
  obtain ⟨decl, hdecl⟩ : ∃ d, alookup rn report_dict = some d := by
    cases h : alookup rn report_dict with
    | none => rw [h] at hck; exact Bool.noConfusion hck
    | some d => exact ⟨d, rfl⟩
  simp only [hdecl] at hck
  obtain ⟨sch, hsch⟩ : ∃ s, reportSchema decl = some s := by
    cases h : reportSchema decl with
    | none => rw [h] at hck; exact Bool.noConfusion hck
    | some s => exact ⟨s, rfl⟩
  simp only [hsch] at hck
  obtain ⟨rid, hrid⟩ : ∃ i, REPORT_IDS rn = some i := by
    cases h : REPORT_IDS rn with
    | none => rw [h] at hck; exact Bool.noConfusion hck
    | some i => exact ⟨i, rfl⟩
  simp only [hrid] at hck
  simp only [Bool.and_eq_true, decide_eq_true_eq, List.all_eq_true] at hck
  obtain ⟨⟨⟨⟨⟨h32, hinv⟩, hcov1⟩, hcov2⟩, hsize⟩, htype⟩ := hck
  obtain ⟨rn2, hrn2⟩ : ∃ s, REPORT_NAMES rid = some s := by
    cases h : REPORT_NAMES rid with
    | none => rw [h] at hinv; exact Bool.noConfusion hinv
    | some s => exact ⟨s, rfl⟩
  simp only [hrn2] at hinv
  have hrn2eq : rn2 = rn := (strEq_iff _ _).mp hinv
  subst hrn2eq
  exact ⟨decl, sch, rid, hdecl, hsch, hrid, h32, hrn2, hcov1, hcov2, hsize, htype⟩

theorem zeroOf_fits (c : String) (h : (structSize c).isSome = true) :
    fitsB c (zeroOf c) = true := by
  by_cases hB : strEq c "B" = true
  · rw [(strEq_iff _ _).mp hB]; decide
  · by_cases hh : strEq c "h" = true
    · rw [(strEq_iff _ _).mp hh]; decide
    · by_cases hH : strEq c "H" = true
      · rw [(strEq_iff _ _).mp hH]; decide
      · by_cases hi : strEq c "i" = true
        · rw [(strEq_iff _ _).mp hi]; decide
        · by_cases hI : strEq c "I" = true
          · rw [(strEq_iff _ _).mp hI]; decide
          · by_cases hQ : strEq c "Q" = true
            · rw [(strEq_iff _ _).mp hQ]; decide
            · by_cases hf : strEq c "f" = true
              · rw [(strEq_iff _ _).mp hf]; decide
              · exfalso
                unfold structSize at h
                rw [if_neg hB, if_neg hh, if_neg hH, if_neg hi, if_neg hI, if_neg hQ,
                  if_neg hf] at h
                exact Bool.noConfusion h

theorem encodeScalar_zero (c : String) (w : Nat) (h : structSize c = some w) :
    encodeScalar c (zeroOf c) = some (List.replicate w 0) := by
  by_cases hB : strEq c "B" = true
  · rw [(strEq_iff _ _).mp hB] at h ⊢
    rw [show structSize "B" = some 1 from rfl] at h
    injection h with hw
    subst hw
    decide
  · by_cases hh : strEq c "h" = true
    · rw [(strEq_iff _ _).mp hh] at h ⊢
      rw [show structSize "h" = some 2 from rfl] at h
      injection h with hw
      subst hw
      decide
    · by_cases hH : strEq c "H" = true
      · rw [(strEq_iff _ _).mp hH] at h ⊢
        rw [show structSize "H" = some 2 from rfl] at h
        injection h with hw
        subst hw
        decide
      · by_cases hi : strEq c "i" = true
        · rw [(strEq_iff _ _).mp hi] at h ⊢
          rw [show structSize "i" = some 4 from rfl] at h
          injection h with hw
          subst hw
          decide
        · by_cases hI : strEq c "I" = true
          · rw [(strEq_iff _ _).mp hI] at h ⊢
            rw [show structSize "I" = some 4 from rfl] at h
            injection h with hw
            subst hw
            decide
          · by_cases hQ : strEq c "Q" = true
            · rw [(strEq_iff _ _).mp hQ] at h ⊢
              rw [show structSize "Q" = some 8 from rfl] at h
              injection h with hw
              subst hw
              decide
            · by_cases hf : strEq c "f" = true
              · rw [(strEq_iff _ _).mp hf] at h ⊢
                rw [show structSize "f" = some 4 from rfl] at h
                injection h with hw
                subst hw
                decide
              · exfalso
                unfold structSize at h
                rw [if_neg hB, if_neg hh, if_neg hH, if_neg hi, if_neg hI, if_neg hQ,
                  if_neg hf] at h
                exact Option.noConfusion h

theorem encodeValues_roundtrip (sch : List (String × String)) (vals : String → Option PyValue)
    (h : ∀ p ∈ sch, fitsB p.2 ((vals p.1).getD (zeroOf p.2)) = true) :
    ∃ payload, encodeValues sch vals = some payload ∧
      payload = (sch.map (fun p =>
        (encodeScalar p.2 ((vals p.1).getD (zeroOf p.2))).getD [])).flatten ∧
      ∀ rest, decodeValues (sch.map (fun p => p.2)) (payload ++ rest) =
        some (sch.map (fun p => (vals p.1).getD (zeroOf p.2))) := by
  induction sch with
  | nil => exact ⟨[], rfl, rfl, fun _ => rfl⟩
  | cons p ps ih =>
    obtain ⟨bs, he, hd⟩ :=
      encodeScalar_roundtrip p.2 ((vals p.1).getD (zeroOf p.2)) (h p (List.mem_cons_self p ps))
    obtain ⟨payload, hev, hjoin, hdv⟩ := ih (fun q hq => h q (List.mem_cons_of_mem p hq))
    refine ⟨bs ++ payload, ?_, ?_, ?_⟩
    · simp only [encodeValues, he, hev]
    · simp only [List.map_cons, List.flatten_cons, he, Option.getD_some]
      rw [hjoin]
    · intro rest
      rw [List.append_assoc]
      simp only [List.map_cons, decodeValues, hd (payload ++ rest), hdv rest]

theorem assign_not_mem (x : String) :
    ∀ (l : List (String × PyValue)) (f₀ : String → Option PyValue),
    (∀ p ∈ l, ¬(x = p.1)) →
    (l.foldl (fun f nv => fun x => if strEq x nv.1 then some nv.2 else f x) f₀) x = f₀ x := by
  intro l
  induction l with
  | nil => intro f₀ _; rfl
  | cons p ps ih =>
    intro f₀ h
    rw [List.foldl_cons]
    rw [ih _ (fun q hq => h q (List.mem_cons_of_mem p hq))]
    show (if strEq x p.1 then some p.2 else f₀ x) = f₀ x
    exact if_neg (fun hc => h p (List.mem_cons_self p ps) ((strEq_iff _ _).mp hc))

theorem assign_mem (x : String) (v : PyValue) :
    ∀ (l : List (String × PyValue)) (f₀ : String → Option PyValue),
    (∀ p ∈ l, x = p.1 → p.2 = v) → (∃ p ∈ l, x = p.1) →
    (l.foldl (fun f nv => fun x => if strEq x nv.1 then some nv.2 else f x) f₀) x = some v := by
  intro l
  induction l with
  | nil =>
    rintro f₀ _ ⟨p, hp, _⟩
    exact absurd hp (List.not_mem_nil p)
  | cons p ps ih =>
    intro f₀ hval hmem
    rw [List.foldl_cons]
    by_cases hps : ∃ q ∈ ps, x = q.1
    · exact ih _ (fun q hq => hval q (List.mem_cons_of_mem p hq)) hps
    · have hx : x = p.1 := by
        obtain ⟨q, hq, hxq⟩ := hmem
        rcases List.mem_cons.mp hq with h1 | h2
        · rw [h1] at hxq; exact hxq
        · exact absurd ⟨q, h2, hxq⟩ hps
      have hnot : ∀ q ∈ ps, ¬(x = q.1) := fun q hq hxq => hps ⟨q, hq, hxq⟩
      rw [assign_not_mem x ps _ hnot]
      show (if strEq x p.1 then some p.2 else f₀ x) = some v
      rw [if_pos ((strEq_iff _ _).mpr hx)]
      rw [hval p (List.mem_cons_self p ps) hx]

theorem schema_fits (decl sch : List (String × String)) (vals : String → Option PyValue)
    (hcov1 : ∀ p ∈ sch, decl.any (fun q => strEq q.1 p.1) = true)
    (hsize : ∀ p ∈ sch, (structSize p.2).isSome = true)
    (htype : ∀ p ∈ sch, (match alookup p.1 var_dict with
      | some info => strEq info.2.1 p.2
      | none => false) = true)
    (hwt : ∀ q ∈ decl, (match vals q.1 with
      | none => true
      | some v => match alookup q.1 var_dict with
        | some info => fitsB info.2.1 v
        | none => false) = true) :
    ∀ p ∈ sch, fitsB p.2 ((vals p.1).getD (zeroOf p.2)) = true := by
  intro p hp
  cases hv : vals p.1 with
  | none =>
    exact zeroOf_fits p.2 (hsize p hp)
  | some v =>
    have hc := hcov1 p hp
    rw [List.any_eq_true] at hc
    obtain ⟨q, hq, hqp⟩ := hc
    have hqp2 : q.1 = p.1 := (strEq_iff _ _).mp hqp
    have hw := hwt q hq
    rw [hqp2, hv] at hw
    have ht := htype p hp
    obtain ⟨info, hinfo⟩ : ∃ i, alookup p.1 var_dict = some i := by
      cases h2 : alookup p.1 var_dict with
      | none => rw [h2] at ht; exact Bool.noConfusion ht
      | some i => exact ⟨i, rfl⟩
    simp only [hinfo] at hw ht
    have hty : info.2.1 = p.2 := (strEq_iff _ _).mp ht
    rw [← hty]
    exact hw

theorem pack_report_ok (rn : String) (vals : String → Option PyValue)
    (decl : List (String × String)) (sch : List (String × String)) (rid : Nat)
    (payload : List Nat) (hdecl : alookup rn report_dict = some decl)
    (hsch : reportSchema decl = some sch) (hrid : REPORT_IDS rn = some rid)
    (h32 : rid < 32) (henc : encodeValues sch vals = some payload) :
    pack_report ⟨rn, vals⟩ = .ok (rid :: payload) := by
  simp only [pack_report]
  simp only [hdecl, hsch, hrid]
  rw [show (alookup "reports" MSG_TYPE_DICT).getD 0 = 0 from rfl]
  rw [show (0:Nat) <<< 5 ||| rid = rid from by rw [Nat.zero_shiftLeft, Nat.zero_or]]
  rw [if_neg (by omega : ¬(256 ≤ rid))]
  simp only [henc]

theorem unpack_report_ok (rn : String) (decl sch : List (String × String)) (rid : Nat)
    (payload : List Nat) (vs : List PyValue)
    (h32 : rid < 32) (hname : REPORT_NAMES rid = some rn)
    (hdecl : alookup rn report_dict = some decl) (hsch : reportSchema decl = some sch)
    (hdec : decodeValues (sch.map (fun p => p.2)) payload = some vs) :
    unpack_report (rid :: payload) = .ok ⟨rn, ((sch.map (fun p => p.1)).zip vs).foldl
      (fun f nv => fun x => if strEq x nv.1 then some nv.2 else f x) (fun _ => none)⟩ := by
  simp only [unpack_report]
  have hmask : rid &&& ((1 <<< REPORT_ID_SIZE) - 1) = rid := by
    rw [show ((1:Nat) <<< REPORT_ID_SIZE) = 2 ^ 5 from rfl, Nat.and_pow_two_sub_one_eq_mod]
    exact Nat.mod_eq_of_lt h32
  rw [hmask]
  simp only [hname, hdecl, hsch, hdec]

theorem pairKeyLe_total : ∀ a b : Nat × Nat, pairKeyLe a b = true ∨ pairKeyLe b a = true := by
  intro a b
  simp only [pairKeyLe, Bool.or_eq_true, Bool.and_eq_true, decide_eq_true_eq, beq_iff_eq]
  omega

theorem pairKeyLe_trans : ∀ a b c : Nat × Nat,
    pairKeyLe a b = true → pairKeyLe b c = true → pairKeyLe a c = true := by
  intro a b c
  simp only [pairKeyLe, Bool.or_eq_true, Bool.and_eq_true, decide_eq_true_eq, beq_iff_eq]
  omega

theorem pairKeyLe_antisymm : ∀ a b : Nat × Nat,
    pairKeyLe a b = true → pairKeyLe b a = true → a = b := by
  intro a b
  simp only [pairKeyLe, Bool.or_eq_true, Bool.and_eq_true, decide_eq_true_eq, beq_iff_eq]
  intro h1 h2
  have hx : a.1 = b.1 := by omega
  have hy : a.2 = b.2 := by omega
  exact Prod.ext hx hy

theorem orderedFor_sorted (decl : List (String × String)) :
    List.Sorted (fun a b => pairKeyLe a b = true) (orderedFor decl) := by
  haveI : IsTotal (Nat × Nat) (fun a b => pairKeyLe a b = true) := ⟨pairKeyLe_total⟩
  haveI : IsTrans (Nat × Nat) (fun a b => pairKeyLe a b = true) := ⟨pairKeyLe_trans⟩
  exact List.sorted_insertionSort _ _

theorem orderedFor_perm (d1 d2 : List (String × String)) (h : d1.Perm d2) :
    orderedFor d1 = orderedFor d2 := by
  haveI : IsTotal (Nat × Nat) (fun a b => pairKeyLe a b = true) := ⟨pairKeyLe_total⟩
  haveI : IsTrans (Nat × Nat) (fun a b => pairKeyLe a b = true) := ⟨pairKeyLe_trans⟩
  haveI : IsAntisymm (Nat × Nat) (fun a b => pairKeyLe a b = true) := ⟨pairKeyLe_antisymm⟩
  unfold orderedFor
  refine List.eq_of_perm_of_sorted ?_ (List.sorted_insertionSort _ _)
    (List.sorted_insertionSort _ _)
  exact ((List.perm_insertionSort _ _).trans (h.filterMap _)).trans
    (List.perm_insertionSort _ _).symm

theorem report_roundtrip_core (rn : String) (vals : String → Option PyValue)
    (hck : checkReport rn = true) (hwt : wellTypedB rn vals = true) :
    ∃ bs rep, pack_report ⟨rn, vals⟩ = .ok bs ∧ unpack_report bs = .ok rep ∧
      rep.name = rn ∧
      ∀ q ∈ (alookup rn report_dict).getD [], rep.vals q.1 = vals q.1 := by
  obtain ⟨decl, sch, rid, hdecl, hsch, hrid, h32, hname, hcov1, hcov2, hsize, htype⟩ :=
    checkReport_spec rn hck
  unfold wellTypedB at hwt
  rw [hdecl] at hwt
  simp only [Option.getD_some, List.all_eq_true] at hwt
  have hset : ∀ q ∈ decl, ∃ v, vals q.1 = some v ∧
      (match alookup q.1 var_dict with
       | some info => fitsB info.2.1 v
       | none => false) = true := by
    intro q hq
    have hw := hwt q hq
    cases hv : vals q.1 with
    | none => rw [hv] at hw; exact Bool.noConfusion hw
    | some v =>
      rw [hv] at hw
      exact ⟨v, rfl, hw⟩
  have hwtOU : ∀ q ∈ decl, (match vals q.1 with
      | none => true
      | some v => match alookup q.1 var_dict with
        | some info => fitsB info.2.1 v
        | none => false) = true := by
    intro q hq
    obtain ⟨v, hv, hfit⟩ := hset q hq
    rw [hv]
    exact hfit
  have hfits := schema_fits decl sch vals hcov1 hsize htype hwtOU
  obtain ⟨payload, henc, hjoin, hdec⟩ := encodeValues_roundtrip sch vals hfits
  have hdec0 : decodeValues (sch.map (fun p => p.2)) payload =
      some (sch.map (fun p => (vals p.1).getD (zeroOf p.2))) := by
    have h2 := hdec []
    rwa [List.append_nil] at h2
  refine ⟨rid :: payload, ⟨rn, ((sch.map (fun p => p.1)).zip
      (sch.map (fun p => (vals p.1).getD (zeroOf p.2)))).foldl
      (fun f nv => fun x => if strEq x nv.1 then some nv.2 else f x) (fun _ => none)⟩,
    pack_report_ok rn vals decl sch rid payload hdecl hsch hrid h32 henc,
    unpack_report_ok rn decl sch rid payload _ h32 hname hdecl hsch hdec0,
    rfl, ?_⟩
  intro q hq
  rw [hdecl] at hq
  have hq2 : q ∈ decl := hq
  obtain ⟨v, hv, _⟩ := hset q hq2
  have hzip : (sch.map (fun p => p.1)).zip (sch.map (fun p => (vals p.1).getD (zeroOf p.2))) =
      sch.map (fun p => (p.1, (vals p.1).getD (zeroOf p.2))) :=
    List.zip_map' _ _ sch
  dsimp only
  rw [hzip, hv]
  apply assign_mem
  · intro entry hentry hq1
    rw [List.mem_map] at hentry
    obtain ⟨p, hp, hpe⟩ := hentry
    rw [← hpe] at hq1 ⊢
    dsimp only at hq1 ⊢
    rw [← hq1, hv]
    exact Option.getD_some
  · have hc := hcov2 q hq2
    rw [List.any_eq_true] at hc
    obtain ⟨p, hp, hpq⟩ := hc
    exact ⟨(p.1, (vals p.1).getD (zeroOf p.2)), List.mem_map_of_mem _ hp,
      ((strEq_iff _ _).mp hpq).symm⟩

/-- C4: report round-trip. For every report name in the tables and every
assignment giving each declared variable a value consistent with its scalar
type, `pack_report` succeeds and `unpack_report` on its output returns a
Report with the same name (hence the same report id) and the same value on
every declared variable. -/
theorem report_roundtrip (rn : String) (hrn : rn ∈ report_names)
    (vals : String → Option PyValue) (hwt : wellTypedB rn vals = true) :
    ∃ bs rep, pack_report ⟨rn, vals⟩ = .ok bs ∧ unpack_report bs = .ok rep ∧
      rep.name = rn ∧ REPORT_IDS rep.name = REPORT_IDS rn ∧
      ∀ q ∈ (alookup rn report_dict).getD [], rep.vals q.1 = vals q.1 := by
  have hck : checkReport rn = true := by
    have he : report_names = ["TM_HEARTBEAT", "TM_STORAGE", "TM_HAL", "TM_TEST", "TM_PAYLOAD"] :=
      rfl
    rw [he] at hrn
    simp only [List.mem_cons, List.not_mem_nil, or_false] at hrn
    obtain h | h | h | h | h := hrn <;> subst h <;> decide
  obtain ⟨bs, rep, h1, h2, h3, h4⟩ := report_roundtrip_core rn vals hck hwt
  exact ⟨bs, rep, h1, h2, h3, by rw [h3], h4⟩

/-- C4 witness: the round-trip applied to `TM_TEST` with `SC_STATE = 2`,
`TIME = 258` and `GPS_MESSAGE_ID = 7`. -/
theorem report_roundtrip_witness :
    ("TM_TEST" ∈ report_names ∧
      wellTypedB "TM_TEST" (fun x =>
        if strEq x "SC_STATE" then some (.int 2)
        else if strEq x "TIME" then some (.int 258)
        else if strEq x "GPS_MESSAGE_ID" then some (.int 7)
        else none) = true) ∧
    ∃ bs rep, pack_report ⟨"TM_TEST", fun x =>
        if strEq x "SC_STATE" then some (.int 2)
        else if strEq x "TIME" then some (.int 258)
        else if strEq x "GPS_MESSAGE_ID" then some (.int 7)
        else none⟩ = .ok bs ∧ unpack_report bs = .ok rep ∧
      rep.name = "TM_TEST" ∧ REPORT_IDS rep.name = REPORT_IDS "TM_TEST" ∧
      ∀ q ∈ (alookup "TM_TEST" report_dict).getD [], rep.vals q.1 =
        (fun x =>
          if strEq x "SC_STATE" then some (.int 2)
          else if strEq x "TIME" then some (.int 258)
          else if strEq x "GPS_MESSAGE_ID" then some (.int 7)
          else none) q.1 :=
  ⟨⟨List.mem_cons_of_mem _ (List.mem_cons_of_mem _ (List.mem_cons_of_mem _
      (List.mem_cons_self _ _))), by decide⟩,
    report_roundtrip "TM_TEST"
      (List.mem_cons_of_mem _ (List.mem_cons_of_mem _ (List.mem_cons_of_mem _
        (List.mem_cons_self _ _)))) _ (by decide)⟩

/-- C6: canonical frame layout of `pack_report`. For every report in the tables
and every assignment that leaves each declared slot unset or well typed, the
packed frame is one header byte `(0 <<< 5) ||| report_id` (tag 0 in the top 3
bits, the 5-bit report id below, value below 256) followed by the per-field
`struct` encodings of the ordered schema concatenated in order; the ordered
schema is sorted by the `(subsystem_id, variable_id)` key and is invariant
under permuting the report's declaration list; every unset slot contributes
exactly the all-zero encoding of its declared scalar type. No scale factor
enters anywhere (the model packs raw values, as the code does). -/
theorem pack_report_canonical (rn : String) (hrn : rn ∈ report_names)
    (vals : String → Option PyValue) (hwt : wellTypedOrUnsetB rn vals = true) :
    ∃ rid sch payload, REPORT_IDS rn = some rid ∧ rid < 32 ∧ ((0 <<< 5) ||| rid) < 256 ∧
      reportSchema ((alookup rn report_dict).getD []) = some sch ∧
      pack_report ⟨rn, vals⟩ = .ok (((0 <<< 5) ||| rid) :: payload) ∧
      payload = (sch.map (fun p =>
        (encodeScalar p.2 ((vals p.1).getD (zeroOf p.2))).getD [])).flatten ∧
      List.Sorted (fun a b => pairKeyLe a b = true)
        (orderedFor ((alookup rn report_dict).getD [])) ∧
      (∀ decl2, decl2.Perm ((alookup rn report_dict).getD []) →
        orderedFor decl2 = orderedFor ((alookup rn report_dict).getD [])) ∧
      (∀ p ∈ sch, vals p.1 = none →
        encodeScalar p.2 ((vals p.1).getD (zeroOf p.2)) =
          some (List.replicate ((structSize p.2).getD 0) 0)) := by
  have hck : checkReport rn = true := by
    have he : report_names = ["TM_HEARTBEAT", "TM_STORAGE", "TM_HAL", "TM_TEST", "TM_PAYLOAD"] :=
      rfl
    rw [he] at hrn
    simp only [List.mem_cons, List.not_mem_nil, or_false] at hrn
    obtain h | h | h | h | h := hrn <;> subst h <;> decide
  obtain ⟨decl, sch, rid, hdecl, hsch, hrid, h32, hname, hcov1, hcov2, hsize, htype⟩ :=
    checkReport_spec rn hck
  unfold wellTypedOrUnsetB at hwt
  rw [hdecl] at hwt
  simp only [Option.getD_some, List.all_eq_true] at hwt
  have hfits := schema_fits decl sch vals hcov1 hsize htype hwt
  obtain ⟨payload, henc, hjoin, _⟩ := encodeValues_roundtrip sch vals hfits
  have hhdr : ((0:Nat) <<< 5) ||| rid = rid := by rw [Nat.zero_shiftLeft, Nat.zero_or]
  refine ⟨rid, sch, payload, hrid, h32, by rw [hhdr]; omega, ?_, ?_, hjoin, ?_, ?_, ?_⟩
  · rw [hdecl]
    exact hsch
  · rw [hhdr]
    exact pack_report_ok rn vals decl sch rid payload hdecl hsch hrid h32 henc
  · rw [hdecl]
    exact orderedFor_sorted decl
  · intro decl2 hperm
    rw [hdecl] at hperm ⊢
    exact orderedFor_perm decl2 decl hperm
  · intro p hp hnone
    have hs := hsize p hp
    obtain ⟨w, hw⟩ : ∃ w, structSize p.2 = some w := by
      cases h2 : structSize p.2 with
      | none => rw [h2] at hs; exact Bool.noConfusion hs
      | some w => exact ⟨w, rfl⟩
    rw [hnone, hw]
    exact encodeScalar_zero p.2 w hw

/-- C6 witness: `TM_TEST` with only `TIME` set (to 5); the two other declared
slots are unset and pack as the zero bytes of their types. -/
theorem pack_report_canonical_witness :
    ("TM_TEST" ∈ report_names ∧
      wellTypedOrUnsetB "TM_TEST" (fun x =>
        if strEq x "TIME" then some (PyValue.int 5) else none) = true) ∧
    (∃ rid sch payload, REPORT_IDS "TM_TEST" = some rid ∧ rid < 32 ∧
      ((0 <<< 5) ||| rid) < 256 ∧
      reportSchema ((alookup "TM_TEST" report_dict).getD []) = some sch ∧
      pack_report ⟨"TM_TEST", fun x =>
        if strEq x "TIME" then some (PyValue.int 5) else none⟩ =
          .ok (((0 <<< 5) ||| rid) :: payload) ∧
      payload = (sch.map (fun p =>
        (encodeScalar p.2 (((fun x => if strEq x "TIME" then some (PyValue.int 5) else none)
          p.1).getD (zeroOf p.2))).getD [])).flatten ∧
      List.Sorted (fun a b => pairKeyLe a b = true)
        (orderedFor ((alookup "TM_TEST" report_dict).getD [])) ∧
      (∀ decl2, decl2.Perm ((alookup "TM_TEST" report_dict).getD []) →
        orderedFor decl2 = orderedFor ((alookup "TM_TEST" report_dict).getD [])) ∧
      (∀ p ∈ sch, (fun x => if strEq x "TIME" then some (PyValue.int 5) else none) p.1 = none →
        encodeScalar p.2 (((fun x => if strEq x "TIME" then some (PyValue.int 5) else none)
          p.1).getD (zeroOf p.2)) =
          some (List.replicate ((structSize p.2).getD 0) 0))) :=
  ⟨⟨List.mem_cons_of_mem _ (List.mem_cons_of_mem _ (List.mem_cons_of_mem _
      (List.mem_cons_self _ _))), by decide⟩,
    pack_report_canonical "TM_TEST"
      (List.mem_cons_of_mem _ (List.mem_cons_of_mem _ (List.mem_cons_of_mem _
        (List.mem_cons_self _ _))))
      (fun x => if strEq x "TIME" then some (PyValue.int 5) else none) (by decide)⟩

end Splat
